import Mathlib

/-!
# oth2a: over-the-air firmware update over HTTP/2 (ESP-IDF)

A shallow embedding of `src/oth2a.c`.

* C strings and byte buffers are lists of byte values (`List Nat`); the C
  string stored in an array is its content before the first NUL byte.
* The file-scope `update_info` struct and the `latest_version` array are passed
  explicitly as state.
* Everything the file calls but does not define (FreeRTOS, the ESP-IDF OTA API,
  the h2client transport, libc `sprintf`) is a field of `Platform`.  Every such
  function receives the log of the calls made so far, so its answer may depend
  on the whole history of the run.
* Each function returns, besides its result and the new state, the log of the
  external calls it made (`Event`), each with the result it got.
* A function either returns to its caller, or ends in `esp_restart` (which does
  not return), or runs into undefined behaviour (NULL dereference, access
  outside an array).
-/

namespace Oth2a

/-! ## Types -/

abbrev esp_err_t := Int

def ESP_OK : esp_err_t := 0

abbrev esp_ota_handle_t := Nat

/-- Descriptive data of a flash partition (`esp_partition_t`); a pointer to one
is an `Option`, `none` being `NULL`. -/
structure esp_partition_t where
  type : Nat
  subtype : Nat
  address : Nat
deriving DecidableEq, Repr

/-- One chunk of response body as handed to a body callback: `(data, len)`. -/
structure Chunk where
  data : List Nat
  len : Nat
deriving DecidableEq, Repr

/-- External calls of the program, each with the result it returned. -/
inductive Event where
  | xSemaphoreCreateBinary (created : Bool)
  | xSemaphoreTake (taken : Bool)
  | xSemaphoreGive
  | esp_ota_get_boot_partition (r : Option esp_partition_t)
  | esp_ota_get_running_partition (r : Option esp_partition_t)
  | esp_ota_get_next_update_partition (r : Option esp_partition_t)
  | esp_ota_begin (partition : esp_partition_t) (r : esp_err_t)
  | esp_ota_write (handle : esp_ota_handle_t) (chunk : Chunk) (r : esp_err_t)
  | esp_ota_end (handle : esp_ota_handle_t) (r : esp_err_t)
  | esp_ota_set_boot_partition (partition : esp_partition_t) (r : esp_err_t)
  | esp_restart
  | h2client_do_request (url : List Nat)
  | h2client_do_request_returned (r : Bool)
deriving DecidableEq, Repr

/-- What `h2client_do_request` does with a request in `H2_HANDLEBODY_BUFFER`
mode: its return value, `r.status`, and the body bytes it stored in the buffer
(`r.responsebody.size` is their number). -/
structure BufferResponse where
  ok : Bool
  status : Int
  body : List Nat
deriving DecidableEq, Repr

/-- What `h2client_do_request` does with a request in `H2_HANDLEBODY_CALLBACK`
mode: the chunks it hands to the callback, in order, and then its return
value. -/
structure CallbackResponse where
  chunks : List Chunk
  ok : Bool
deriving DecidableEq, Repr

/-- The external collaborators.  The first argument of every field is the log
of the calls made before this one. -/
structure Platform where
  xSemaphoreCreateBinary : List Event → Bool
  esp_ota_get_boot_partition : List Event → Option esp_partition_t
  esp_ota_get_running_partition : List Event → Option esp_partition_t
  esp_ota_get_next_update_partition : List Event → Option esp_partition_t
  /-- `esp_ota_begin(partition, OTA_SIZE_UNKNOWN, &handle)`: takes the old value
  of the handle, returns the error code and the new value of the handle. -/
  esp_ota_begin : List Event → esp_partition_t → esp_ota_handle_t → esp_err_t × esp_ota_handle_t
  esp_ota_write : List Event → esp_ota_handle_t → Chunk → esp_err_t
  esp_ota_end : List Event → esp_ota_handle_t → esp_err_t
  esp_ota_set_boot_partition : List Event → esp_partition_t → esp_err_t
  /-- Request with `responsebody.method = H2_HANDLEBODY_BUFFER`, by url and
  `responsebody.buffer_size`. -/
  h2client_do_request_buffer : List Event → List Nat → Nat → BufferResponse
  /-- Request with `responsebody.method = H2_HANDLEBODY_CALLBACK`, by url. -/
  h2client_do_request_callback : List Event → List Nat → CallbackResponse
  /-- `sprintf(buf, format, args...)`: return value and the string stored. -/
  sprintf : List Nat → List (List Nat) → Int × List Nat

/-- Build-time configuration: `CONFIG_OTH2A_BASE_URL`,
`CONFIG_OTH2A_FIRMWARE_PREAMBLE` and the `extern` string `VERSION`. -/
structure Config where
  CONFIG_OTH2A_BASE_URL : List Nat
  CONFIG_OTH2A_FIRMWARE_PREAMBLE : List Nat
  VERSION : List Nat

/-- How a call ends. -/
inductive Outcome (α : Type) where
  | returned (a : α)
  | restarted
  | undefined_behaviour
deriving DecidableEq, Repr

/-- The file-scope struct `update_info`.  The semaphore handle is `none` when
`NULL`, otherwise it carries the state of the binary semaphore: `true` when it
is available, `false` when it is taken. -/
structure update_info_t where
  semaphore : Option Bool
  handle : esp_ota_handle_t
  error : Bool
  binary_file_size : Int
deriving DecidableEq, Repr

/-- Result, final `update_info` and extended call log of a run. -/
structure Run (α : Type) where
  outcome : Outcome α
  info : update_info_t
  trace : List Event

/-! ## C strings and integers -/

def VERSION_MAX_STRLEN : Nat := 12

/-- The C string stored in a byte array: the bytes before the first NUL. -/
def c_str (a : List Nat) : List Nat := a.takeWhile (fun b => b != 0)

def strlen (a : List Nat) : Nat := (c_str a).length

/-- The test `strcmp(a, b) != 0`. -/
def strcmp_ne (a b : List Nat) : Bool := c_str a != c_str b

/-- `oth2a_latest_file = "latest"`. -/
def oth2a_latest_file : List Nat := [108, 97, 116, 101, 115, 116]

/-- The format `"%s/%s"`. -/
def fmt_s_slash_s : List Nat := [37, 115, 47, 37, 115]

/-- `oth2a_bin_file_template = CONFIG_OTH2A_FIRMWARE_PREAMBLE "_%s.bin"`. -/
def oth2a_bin_file_template (cfg : Config) : List Nat :=
  cfg.CONFIG_OTH2A_FIRMWARE_PREAMBLE ++ [95, 37, 115, 46, 98, 105, 110]

/-- Conversion of an `int` to the 32-bit `size_t`. -/
def size_t_of_int (i : Int) : Nat := (i % 2 ^ 32).toNat

/-- Conversion of a 32-bit `size_t` value to `int` (two's complement). -/
def int_of_size_t (n : Nat) : Int :=
  if n % 2 ^ 32 < 2 ^ 31 then ((n % 2 ^ 32 : Nat) : Int) else ((n % 2 ^ 32 : Nat) : Int) - 2 ^ 32

/-- The compound assignment `i += len` for `int i` and `size_t len`: the sum is
computed in `size_t` and converted back to `int`. -/
def int_add_assign_size_t (i : Int) (len : Nat) : Int :=
  int_of_size_t ((size_t_of_int i + len % 2 ^ 32) % 2 ^ 32)

/-! ## FreeRTOS binary semaphore -/

/-- `xSemaphoreTake(sem, 0)` on a non-NULL binary semaphore: never waits. -/
def xSemaphoreTake (available : Bool) : Bool × Bool := (available, false)

/-- `xSemaphoreGive(sem)` on a non-NULL binary semaphore. -/
def xSemaphoreGive ( _available : Bool) : Bool := true

/-! ## The program -/

/-- `oth2a_initialize`: lines 35-47.  Returns 0 or -1. -/
def oth2a_initialize (p : Platform) (u : update_info_t) (tr : List Event) : Run Int :=
  let created := p.xSemaphoreCreateBinary tr
  let tr := tr ++ [Event.xSemaphoreCreateBinary created]
  if !created then
    ⟨.returned (-1), { u with semaphore := none }, tr⟩
  else
    -- a binary semaphore is created taken
    ⟨.returned 0, { u with semaphore := some (xSemaphoreGive false) }, tr ++ [Event.xSemaphoreGive]⟩

/-- `write_to_flash`: lines 209-227, the body callback of the image download. -/
def write_to_flash (p : Platform) (u : update_info_t) (tr : List Event) (c : Chunk) :
    update_info_t × List Event :=
  if !u.error then
    let err := p.esp_ota_write tr u.handle c
    let tr := tr ++ [Event.esp_ota_write u.handle c err]
    let u := if err ≠ ESP_OK then { u with error := true } else u
    ({ u with binary_file_size := int_add_assign_size_t u.binary_file_size c.len }, tr)
  else
    (u, tr)

/-- The transport handing the chunks of a response body to the callback
`write_to_flash`, one call per chunk, in order. -/
def deliver (p : Platform) : update_info_t → List Event → List Chunk → update_info_t × List Event
  | u, tr, [] => (u, tr)
  | u, tr, c :: cs => deliver p (write_to_flash p u tr c).1 (write_to_flash p u tr c).2 cs

/-- The label `error:` of `update_firmware`, lines 204-206. -/
def update_firmware_error (u : update_info_t) (tr : List Event) : Run Bool :=
  ⟨.returned false, { u with semaphore := u.semaphore.map xSemaphoreGive }, tr ++ [Event.xSemaphoreGive]⟩

/-- `update_firmware`, lines 176-207: from the download request on.
`update_partition` is the partition the session was opened on and `bin_url` the
url of the image. -/
def update_firmware_download (p : Platform) (u : update_info_t) (tr : List Event)
    (update_partition : esp_partition_t) (bin_url : List Nat) : Run Bool :=
  let resp := p.h2client_do_request_callback tr bin_url
  let tr := tr ++ [Event.h2client_do_request bin_url]
  let d := deliver p u tr resp.chunks
  let u := d.1
  let tr := d.2 ++ [Event.h2client_do_request_returned resp.ok]
  if !resp.ok then
    let e := p.esp_ota_end tr u.handle
    update_firmware_error u (tr ++ [Event.esp_ota_end u.handle e])
  else
    let e := p.esp_ota_end tr u.handle
    let tr := tr ++ [Event.esp_ota_end u.handle e]
    if e ≠ ESP_OK then
      update_firmware_error u tr
    else if !u.error then
      let err := p.esp_ota_set_boot_partition tr update_partition
      let tr := tr ++ [Event.esp_ota_set_boot_partition update_partition err]
      if err ≠ ESP_OK then
        update_firmware_error u tr
      else
        -- esp_restart() does not return
        ⟨.restarted, u, tr ++ [Event.esp_restart]⟩
    else
      ⟨.returned true, { u with semaphore := u.semaphore.map xSemaphoreGive },
        tr ++ [Event.xSemaphoreGive]⟩

/-- `update_firmware`: lines 108-207. -/
def update_firmware (p : Platform) (cfg : Config) (u : update_info_t) (tr : List Event)
    (new_version : List Nat) : Run Bool :=
  match u.semaphore with
  | none => ⟨.undefined_behaviour, u, tr⟩
  | some available =>
    let taken := (xSemaphoreTake available).1
    let u := { u with semaphore := some (xSemaphoreTake available).2 }
    let tr := tr ++ [Event.xSemaphoreTake taken]
    if !taken then
      ⟨.returned false, u, tr⟩
    else
      let configured := p.esp_ota_get_boot_partition tr
      let tr := tr ++ [Event.esp_ota_get_boot_partition configured]
      let running := p.esp_ota_get_running_partition tr
      let tr := tr ++ [Event.esp_ota_get_running_partition running]
      let bin_file := p.sprintf (oth2a_bin_file_template cfg) [c_str new_version]
      if bin_file.1 < 0 then
        update_firmware_error u tr
      else
        let bin_url := p.sprintf fmt_s_slash_s [c_str cfg.CONFIG_OTH2A_BASE_URL, bin_file.2]
        if bin_url.1 < 0 then
          update_firmware_error u tr
        else
          match configured with
          | none => update_firmware_error u tr
          | some _ =>
            -- lines 142-148 read `running->address`, `running->type`, ...
            match running with
            | none => ⟨.undefined_behaviour, u, tr⟩
            | some _ =>
              let next := p.esp_ota_get_next_update_partition tr
              let tr := tr ++ [Event.esp_ota_get_next_update_partition next]
              -- lines 151-152 read `update_partition->subtype` and `->address`
              -- before the test of line 154
              match next with
              | none => ⟨.undefined_behaviour, u, tr⟩
              | some update_partition =>
                let b := p.esp_ota_begin tr update_partition u.handle
                let u := { u with handle := b.2 }
                let tr := tr ++ [Event.esp_ota_begin update_partition b.1]
                if b.1 ≠ ESP_OK then
                  update_firmware_error u tr
                else
                  let u := { u with error := false, binary_file_size := 0 }
                  update_firmware_download p u tr update_partition bin_url.2

/-- Result of `oth2a_new_sw_available`: how it ends, the content of the
caller's `version_buffer` afterwards, and the extended call log. -/
structure VersionCheck where
  outcome : Outcome Bool
  buffer : List Nat
  trace : List Event

/-- The transport storing `body` at the start of the array `buf`; `none` when
the body does not fit in the array. -/
def store_body (buf body : List Nat) : Option (List Nat) :=
  if body.length ≤ buf.length then some (body ++ buf.drop body.length) else none

/-- The loop of lines 92-97, `for(i = 0; i < size && !set; i++)`, from its
state `(i, set, buf)` on; `fuel` bounds the number of iterations. -/
def newline_loop (size : Nat) : Nat → Nat → Bool → List Nat → Bool × List Nat
  | 0, _, set, buf => (set, buf)
  | fuel + 1, i, set, buf =>
    if i < size && !set then
      if buf.getD i 0 = 10 then
        newline_loop size fuel (i + 1) true (buf.set i 0)
      else
        newline_loop size fuel (i + 1) set buf
    else
      (set, buf)

/-- `oth2a_new_sw_available`: lines 71-106.  `version_buffer` is the content of
the array the caller passes, `buffer_size` the size the caller states. -/
def oth2a_new_sw_available (p : Platform) (cfg : Config) (tr : List Event)
    (version_buffer : List Nat) (buffer_size : Nat) : VersionCheck :=
  if strlen cfg.CONFIG_OTH2A_BASE_URL = 0 then
    ⟨.returned false, version_buffer, tr⟩
  else
    let url := (p.sprintf fmt_s_slash_s [c_str cfg.CONFIG_OTH2A_BASE_URL, oth2a_latest_file]).2
    -- `buffer_size - 1` in `size_t`
    let limit := (buffer_size + 2 ^ 32 - 1) % 2 ^ 32
    let resp := p.h2client_do_request_buffer tr url limit
    let tr := tr ++ [Event.h2client_do_request url, Event.h2client_do_request_returned resp.ok]
    match store_body version_buffer resp.body with
    | none => ⟨.undefined_behaviour, version_buffer, tr⟩
    | some buf =>
      if resp.ok && resp.status == 200 then
        let size := resp.body.length
        let l := newline_loop size size 0 false buf
        if !l.1 then
          if size < l.2.length then
            ⟨.returned (strcmp_ne (l.2.set size 0) cfg.VERSION), l.2.set size 0, tr⟩
          else
            ⟨.undefined_behaviour, l.2, tr⟩
        else
          ⟨.returned (strcmp_ne l.2 cfg.VERSION), l.2, tr⟩
      else
        ⟨.returned false, buf, tr⟩

/-- The file-scope variables: `update_info` and `latest_version`. -/
structure Globals where
  update_info : update_info_t
  latest_version : List Nat

/-- Result of `oth2a_handle`. -/
structure HandleRun where
  outcome : Outcome Bool
  globals : Globals
  trace : List Event

/-- `oth2a_handle`: lines 49-60. -/
def oth2a_handle (p : Platform) (cfg : Config) (g : Globals) (tr : List Event) : HandleRun :=
  let c := oth2a_new_sw_available p cfg tr g.latest_version VERSION_MAX_STRLEN
  match c.outcome with
  | .returned true =>
    let r := update_firmware p cfg g.update_info c.trace c.buffer
    match r.outcome with
    | .returned true => ⟨.returned true, ⟨r.info, c.buffer⟩, r.trace⟩
    | .returned false => ⟨.returned false, ⟨r.info, c.buffer⟩, r.trace⟩
    | .restarted => ⟨.restarted, ⟨r.info, c.buffer⟩, r.trace⟩
    | .undefined_behaviour => ⟨.undefined_behaviour, ⟨r.info, c.buffer⟩, r.trace⟩
  | .returned false => ⟨.returned false, ⟨g.update_info, c.buffer⟩, c.trace⟩
  | .restarted => ⟨.restarted, ⟨g.update_info, c.buffer⟩, c.trace⟩
  | .undefined_behaviour => ⟨.undefined_behaviour, ⟨g.update_info, c.buffer⟩, c.trace⟩

/-! ## Reading a call log -/

/-- The events a run started at log `tr0` added to the log. -/
def events_since (tr0 : List Event) (tr : List Event) : List Event := tr.drop tr0.length

def is_esp_ota_write : Event → Bool
  | .esp_ota_write _ _ _ => true
  | _ => false

def is_esp_ota_begin : Event → Bool
  | .esp_ota_begin _ _ => true
  | _ => false

def is_esp_ota_end : Event → Bool
  | .esp_ota_end _ _ => true
  | _ => false

def is_esp_ota_set_boot_partition : Event → Bool
  | .esp_ota_set_boot_partition _ _ => true
  | _ => false

def is_esp_restart : Event → Bool
  | .esp_restart => true
  | _ => false

def is_xSemaphoreGive : Event → Bool
  | .xSemaphoreGive => true
  | _ => false

def is_h2client_do_request : Event → Bool
  | .h2client_do_request _ => true
  | _ => false

def is_partition_query : Event → Bool
  | .esp_ota_get_boot_partition _ => true
  | .esp_ota_get_running_partition _ => true
  | .esp_ota_get_next_update_partition _ => true
  | _ => false

/-- The `(data, len)` arguments of the `esp_ota_write` calls of a log, in
order. -/
def flash_writes (tr : List Event) : List Chunk :=
  tr.filterMap fun e =>
    match e with
    | .esp_ota_write _ c _ => some c
    | _ => none

/-- Specification side of the streaming writer: the prefix of the delivered
chunks up to and including the first chunk whose `esp_ota_write` fails, the
whole sequence if none fails.  `tr` is the call log when the first chunk arrives
and `h` the session handle. -/
def chunks_through_first_failure (p : Platform) (h : esp_ota_handle_t) :
    List Event → List Chunk → List Chunk
  | _, [] => []
  | tr, c :: cs =>
    if p.esp_ota_write tr h c ≠ ESP_OK then [c]
    else c :: chunks_through_first_failure p h (tr ++ [Event.esp_ota_write h c ESP_OK]) cs

/-- Sum of the `len` of the chunks. -/
def total_len (cs : List Chunk) : Nat := (cs.map Chunk.len).sum

/-- The log entries of the `esp_ota_write` calls made for the chunks of
`chunks_through_first_failure`, with the results the platform gives. -/
def write_log (p : Platform) (h : esp_ota_handle_t) : List Event → List Chunk → List Event
  | _, [] => []
  | tr, c :: cs =>
    if p.esp_ota_write tr h c ≠ ESP_OK then
      [Event.esp_ota_write h c (p.esp_ota_write tr h c)]
    else
      Event.esp_ota_write h c ESP_OK :: write_log p h (tr ++ [Event.esp_ota_write h c ESP_OK]) cs

/-- The url of the version request: what `sprintf(url, "%s/%s", oth2a_base_url,
oth2a_latest_file)` stores. -/
def version_url (p : Platform) (cfg : Config) : List Nat :=
  (p.sprintf fmt_s_slash_s [c_str cfg.CONFIG_OTH2A_BASE_URL, oth2a_latest_file]).2

/-- The response the transport gives to the version request that
`oth2a_new_sw_available` issues at call log `tr` for a buffer of `buffer_size`
bytes. -/
def version_response (p : Platform) (cfg : Config) (tr : List Event) (buffer_size : Nat) :
    BufferResponse :=
  p.h2client_do_request_buffer tr (version_url p cfg) ((buffer_size + 2 ^ 32 - 1) % 2 ^ 32)

/-- Specification side of the version normalisation: the body truncated just
before its first `'\n'` byte, the entire body when it contains no `'\n'`. -/
def truncate_at_newline (body : List Nat) : List Nat := body.takeWhile (fun b => b != 10)

/-! ## Example platforms -/

def ota_0 : esp_partition_t := ⟨0, 16, 65536⟩

def ota_1 : esp_partition_t := ⟨0, 17, 1114112⟩

/-- What `sprintf` stores for a format whose only directives are `%s`, as on
the example platforms: it copies the format, replacing each `%s` by the next
argument. -/
def sprintf_s : List Nat → List (List Nat) → List Nat
  | [], _ => []
  | 37 :: 115 :: rest, a :: args => a ++ sprintf_s rest args
  | c :: rest, args => c :: sprintf_s rest args

/-- The response to the version request on the example platforms: `"2.0.1\n"`
with status 200. -/
def latest_response : BufferResponse := ⟨true, 200, [50, 46, 48, 46, 49, 10]⟩

/-- An example platform: running from `ota_0`, next update partition `ota_1`,
the image arrives in the chunks `chunks` and the download ends with `dl_ok`;
`write_result` decides the `esp_ota_write` results from the number of calls made
before, `end_result` and `commit_result` are the results of `esp_ota_end` and
`esp_ota_set_boot_partition`. -/
def example_platform (chunks : List Chunk) (dl_ok : Bool) (write_result : Nat → esp_err_t)
    (end_result commit_result : esp_err_t) : Platform where
  xSemaphoreCreateBinary := fun _ => true
  esp_ota_get_boot_partition := fun _ => some ota_0
  esp_ota_get_running_partition := fun _ => some ota_0
  esp_ota_get_next_update_partition := fun _ => some ota_1
  esp_ota_begin := fun _ _ _ => (ESP_OK, 1)
  esp_ota_write := fun tr _ _ => write_result (tr.countP is_esp_ota_write)
  esp_ota_end := fun _ _ => end_result
  esp_ota_set_boot_partition := fun _ _ => commit_result
  h2client_do_request_buffer := fun _ _ _ => latest_response
  h2client_do_request_callback := fun _ _ => ⟨chunks, dl_ok⟩
  sprintf := fun f args => ((sprintf_s f args).length, sprintf_s f args)

/-- Two chunks of 4 and 3 bytes. -/
def two_chunks : List Chunk := [⟨[1, 2, 3, 4], 4⟩, ⟨[5, 6, 7], 3⟩]

/-- Three chunks of 4, 3 and 2 bytes. -/
def three_chunks : List Chunk := [⟨[1, 2, 3, 4], 4⟩, ⟨[5, 6, 7], 3⟩, ⟨[8, 9], 2⟩]

/-- Every write succeeds. -/
def writes_ok : Nat → esp_err_t := fun _ => ESP_OK

/-- The first write fails, with `ESP_ERR_OTA_VALIDATE_FAILED`. -/
def first_write_fails : Nat → esp_err_t := fun n => if n = 0 then 5379 else ESP_OK

/-- The second write fails, with `ESP_ERR_FLASH_OP_FAIL`. -/
def second_write_fails : Nat → esp_err_t := fun n => if n = 1 then 24577 else ESP_OK

/-- The state of `update_info` at the start of a flash session with handle 1:
lock taken, no error, nothing counted. -/
def session_start : update_info_t := ⟨some false, 1, false, 0⟩

/-- The state of `update_info` after `oth2a_initialize`: lock available. -/
def idle_info : update_info_t := ⟨some true, 0, false, 0⟩

/-- Configuration of the examples: base url `"h"`, preamble `"fw"`, running
version `"2.0.0"`. -/
def example_config : Config := ⟨[104], [102, 119], [50, 46, 48, 46, 48]⟩

/-- The content of `latest_version` after a check that found `"2.0.1"`. -/
def version_2_0_1 : List Nat := [50, 46, 48, 46, 49, 0, 0, 0, 0, 0, 0, 0]

/-- The file-scope variables after `oth2a_initialize`, `latest_version` still
zeroed. -/
def idle_globals : Globals := ⟨idle_info, List.replicate 12 0⟩

/-- `ESP_FAIL`. -/
def ESP_FAIL : esp_err_t := -1

/-- Configuration like `example_config`, but running version `"2.0.1"`. -/
def example_config_latest : Config := ⟨[104], [102, 119], [50, 46, 48, 46, 49]⟩

/-- A remote version of 15 characters, `"2.0.1-beta-long"`. -/
def long_version : List Nat :=
  [50, 46, 48, 46, 49, 45, 98, 101, 116, 97, 45, 108, 111, 110, 103]

/-- An example platform whose transport answers the version request with
`body`, cut to the `buffer_size` of the request, and with the return value `ok`
and the status `status`. -/
def version_platform (ok : Bool) (status : Int) (body : List Nat) : Platform :=
  { example_platform three_chunks true writes_ok 0 0 with
    h2client_do_request_buffer := fun _ _ limit => ⟨ok, status, body.take limit⟩ }

/-- Configuration without base url. -/
def config_no_base_url : Config := ⟨[], [102, 119], [50, 46, 48, 46, 48]⟩

/-- An example platform without OTA partition layout:
`esp_ota_get_boot_partition` returns NULL. -/
def platform_not_ota : Platform :=
  { example_platform three_chunks true writes_ok 0 0 with
    esp_ota_get_boot_partition := fun _ => none }

/-- An example platform that has a boot partition but offers no next update
partition: `esp_ota_get_next_update_partition` returns NULL. -/
def platform_no_next : Platform :=
  { example_platform three_chunks true writes_ok 0 0 with
    esp_ota_get_next_update_partition := fun _ => none }

/-- The state of `update_info` that an attempt with a failed write leaves
behind: lock available again, failure flag set, 4 bytes counted. -/
def info_after_failed_attempt : update_info_t := ⟨some true, 1, true, 4⟩

/-- Line 115: `sizeof(bin_file)`, where
`char bin_file[strlen(oth2a_bin_file_template) + strlen(new_version)]`. -/
def sizeof_bin_file (cfg : Config) (new_version : List Nat) : Nat :=
  strlen (oth2a_bin_file_template cfg) + strlen new_version

/-- Line 116: `sizeof(bin_url)`, where
`char bin_url[strlen(oth2a_base_url) + sizeof(bin_file)]`. -/
def sizeof_bin_url (cfg : Config) (new_version : List Nat) : Nat :=
  strlen cfg.CONFIG_OTH2A_BASE_URL + sizeof_bin_file cfg new_version

/-- Line 79: the size of the array
`char url[strlen(oth2a_base_url) + strlen(oth2a_latest_file) + 1 + 1]`. -/
def sizeof_url (cfg : Config) : Nat :=
  strlen cfg.CONFIG_OTH2A_BASE_URL + strlen oth2a_latest_file + 1 + 1

/-- Line 127: the file name that `sprintf(bin_file, oth2a_bin_file_template,
new_version)` produces. -/
def bin_file_name (cfg : Config) (new_version : List Nat) : List Nat :=
  sprintf_s (oth2a_bin_file_template cfg) [c_str new_version]

/-- Line 131: the url that `sprintf(bin_url, "%s/%s", oth2a_base_url, bin_file)`
produces. -/
def bin_url_string (cfg : Config) (new_version : List Nat) : List Nat :=
  sprintf_s fmt_s_slash_s [c_str cfg.CONFIG_OTH2A_BASE_URL, c_str (bin_file_name cfg new_version)]

/-- Line 80: the url that `sprintf(url, "%s/%s", oth2a_base_url,
oth2a_latest_file)` produces. -/
def latest_url_string (cfg : Config) : List Nat :=
  sprintf_s fmt_s_slash_s [c_str cfg.CONFIG_OTH2A_BASE_URL, c_str oth2a_latest_file]

/-- Line 159: the value `esp_ota_begin` stores in `update_info.handle` when
`update_firmware`, entered at call log `tr` with state `u`, calls it on `part`
after the boot and running partition queries returned `c` and `rn`: the handle
of the flash session it opens. -/
def session_handle (p : Platform) (u : update_info_t) (tr : List Event)
    (c rn : Option esp_partition_t) (part : esp_partition_t) : esp_ota_handle_t :=
  (p.esp_ota_begin
    (tr ++ [Event.xSemaphoreTake true, Event.esp_ota_get_boot_partition c,
      Event.esp_ota_get_running_partition rn,
      Event.esp_ota_get_next_update_partition (some part)]) part u.handle).2

/-! ## Facts about the integer conversions -/

theorem int_of_size_t_mod (n : Nat) : int_of_size_t (n % 2 ^ 32) = int_of_size_t n := by
  unfold int_of_size_t
  simp

theorem size_t_of_int_of_size_t (n : Nat) : size_t_of_int (int_of_size_t n) = n % 2 ^ 32 := by
  unfold size_t_of_int int_of_size_t
  split <;> omega

theorem int_add_assign_size_t_of_size_t (n len : Nat) :
    int_add_assign_size_t (int_of_size_t n) len = int_of_size_t (n + len) := by
  unfold int_add_assign_size_t
  rw [size_t_of_int_of_size_t, int_of_size_t_mod, ← int_of_size_t_mod (n + len), Nat.add_mod,
    int_of_size_t_mod]

theorem int_of_size_t_small (n : Nat) (h : n < 2 ^ 31) : int_of_size_t n = (n : Int) := by
  unfold int_of_size_t
  have : n % 2 ^ 32 = n := Nat.mod_eq_of_lt (by omega)
  rw [this]
  have h2 : n < 2147483648 := by omega
  simp [h2]

/-! ## The streaming writer -/

theorem write_to_flash_error (p : Platform) (u : update_info_t) (tr : List Event) (c : Chunk)
    (h : u.error = true) : write_to_flash p u tr c = (u, tr) := by
  simp [write_to_flash, h]

theorem deliver_error (p : Platform) (u : update_info_t) (tr : List Event) (cs : List Chunk)
    (h : u.error = true) : deliver p u tr cs = (u, tr) := by
  induction cs with
  | nil => rfl
  | cons c cs ih => simp [deliver, write_to_flash_error p u tr c h, ih]

theorem deliver_cons_fail (p : Platform) (u : update_info_t) (tr : List Event) (c : Chunk)
    (cs : List Chunk) (h : u.error = false) (hw : p.esp_ota_write tr u.handle c ≠ ESP_OK) :
    deliver p u tr (c :: cs) =
      ({ u with error := true,
                binary_file_size := int_add_assign_size_t u.binary_file_size c.len },
        tr ++ [Event.esp_ota_write u.handle c (p.esp_ota_write tr u.handle c)]) := by
  have hw1 : write_to_flash p u tr c =
      ({ u with error := true,
                binary_file_size := int_add_assign_size_t u.binary_file_size c.len },
        tr ++ [Event.esp_ota_write u.handle c (p.esp_ota_write tr u.handle c)]) := by
    simp [write_to_flash, h, hw]
  rw [deliver, hw1]
  exact deliver_error p _ _ cs rfl

theorem deliver_cons_ok (p : Platform) (u : update_info_t) (tr : List Event) (c : Chunk)
    (cs : List Chunk) (h : u.error = false) (hw : p.esp_ota_write tr u.handle c = ESP_OK) :
    deliver p u tr (c :: cs) =
      deliver p { u with binary_file_size := int_add_assign_size_t u.binary_file_size c.len }
        (tr ++ [Event.esp_ota_write u.handle c ESP_OK]) cs := by
  have hw1 : write_to_flash p u tr c =
      ({ u with binary_file_size := int_add_assign_size_t u.binary_file_size c.len },
        tr ++ [Event.esp_ota_write u.handle c ESP_OK]) := by
    simp [write_to_flash, h, hw]
  rw [deliver, hw1]

theorem deliver_handle (p : Platform) (u : update_info_t) (tr : List Event) (cs : List Chunk) :
    (deliver p u tr cs).1.handle = u.handle ∧ (deliver p u tr cs).1.semaphore = u.semaphore := by
  induction cs generalizing u tr with
  | nil => exact ⟨rfl, rfl⟩
  | cons c cs ih =>
    rw [deliver]
    have := ih (write_to_flash p u tr c).1 (write_to_flash p u tr c).2
    rw [this.1, this.2]
    unfold write_to_flash
    by_cases h : u.error <;> by_cases hw : p.esp_ota_write tr u.handle c = ESP_OK <;> simp [h, hw]

theorem events_since_append (tr ws : List Event) : events_since tr (tr ++ ws) = ws := by
  simp [events_since]

/-- Delivering chunks adds to the call log the `esp_ota_write` calls made, and
nothing else. -/
theorem deliver_trace (p : Platform) (u : update_info_t) (tr : List Event) (cs : List Chunk)
    (h : u.error = false) : (deliver p u tr cs).2 = tr ++ write_log p u.handle tr cs := by
  induction cs generalizing u tr with
  | nil => simp [deliver, write_log]
  | cons c cs ih =>
    by_cases hw : p.esp_ota_write tr u.handle c = ESP_OK
    · rw [deliver_cons_ok p u tr c cs h hw,
        ih { u with binary_file_size := int_add_assign_size_t u.binary_file_size c.len } _ h]
      simp [write_log, hw]
    · rw [deliver_cons_fail p u tr c cs h hw]
      simp [write_log, hw]

theorem flash_writes_write_log (p : Platform) (h : esp_ota_handle_t) (tr : List Event)
    (cs : List Chunk) :
    flash_writes (write_log p h tr cs) = chunks_through_first_failure p h tr cs := by
  induction cs generalizing tr with
  | nil => rfl
  | cons c cs ih =>
    by_cases hw : p.esp_ota_write tr h c = ESP_OK
    · have := ih (tr ++ [Event.esp_ota_write h c ESP_OK])
      simp [write_log, chunks_through_first_failure, hw, flash_writes] at this ⊢
      exact this
    · simp [write_log, chunks_through_first_failure, hw, flash_writes]

theorem write_log_all_writes (p : Platform) (h : esp_ota_handle_t) (tr : List Event)
    (cs : List Chunk) :
    ∀ e ∈ write_log p h tr cs, ∃ c r, e = Event.esp_ota_write h c r := by
  induction cs generalizing tr with
  | nil => simp [write_log]
  | cons c cs ih =>
    intro e he
    by_cases hw : p.esp_ota_write tr h c = ESP_OK
    · simp [write_log, hw] at he
      rcases he with he | he
      · exact ⟨c, ESP_OK, he⟩
      · exact ih _ e he
    · simp [write_log, hw] at he
      exact ⟨c, _, he⟩

theorem chunks_through_first_failure_prefix (p : Platform) (h : esp_ota_handle_t)
    (tr : List Event) (cs : List Chunk) :
    List.IsPrefix (chunks_through_first_failure p h tr cs) cs := by
  induction cs generalizing tr with
  | nil => simp [chunks_through_first_failure]
  | cons c cs ih =>
    by_cases hw : p.esp_ota_write tr h c = ESP_OK
    · simp [chunks_through_first_failure, hw, List.cons_prefix_cons, ih]
    · simp [chunks_through_first_failure, hw, List.cons_prefix_cons]

/-- The byte counter after a delivery, starting from any value `n` of the
counter. -/
theorem deliver_size (p : Platform) (u : update_info_t) (tr : List Event) (cs : List Chunk)
    (n : Nat) (h : u.error = false) (hn : u.binary_file_size = int_of_size_t n) :
    (deliver p u tr cs).1.binary_file_size =
      int_of_size_t (n + total_len (chunks_through_first_failure p u.handle tr cs)) := by
  induction cs generalizing u tr n with
  | nil => simp [deliver, chunks_through_first_failure, total_len, hn]
  | cons c cs ih =>
    by_cases hw : p.esp_ota_write tr u.handle c = ESP_OK
    · rw [deliver_cons_ok p u tr c cs h hw,
        ih { u with binary_file_size := int_add_assign_size_t u.binary_file_size c.len } _
          (n + c.len) h (by simp [hn, int_add_assign_size_t_of_size_t])]
      simp [chunks_through_first_failure, hw, total_len, Nat.add_assoc]
    · rw [deliver_cons_fail p u tr c cs h hw]
      simp [chunks_through_first_failure, hw, total_len, hn, int_add_assign_size_t_of_size_t]

/-- C3: within a session (the failure flag is false when the first chunk
arrives) the `(data, len)` arguments of the `esp_ota_write` calls made while the
chunks are delivered are, in order, exactly the delivered chunks up to and
including the first one whose write fails (all of them if no write fails); that
list is a prefix of the delivered sequence, every call is made on the session
handle, and nothing but `esp_ota_write` is called. -/
theorem flash_writes_prefix_through_first_failure (p : Platform) (u : update_info_t)
    (tr : List Event) (chunks : List Chunk) (h : u.error = false) :
    flash_writes (events_since tr (deliver p u tr chunks).2)
        = chunks_through_first_failure p u.handle tr chunks
      ∧ List.IsPrefix (chunks_through_first_failure p u.handle tr chunks) chunks
      ∧ ∀ e ∈ events_since tr (deliver p u tr chunks).2,
          ∃ c r, e = Event.esp_ota_write u.handle c r := by
  rw [deliver_trace p u tr chunks h, events_since_append]
  exact ⟨flash_writes_write_log p u.handle tr chunks,
    chunks_through_first_failure_prefix p u.handle tr chunks,
    write_log_all_writes p u.handle tr chunks⟩

theorem flash_writes_prefix_through_first_failure_witness :
    session_start.error = false
      ∧ flash_writes (events_since []
          (deliver (example_platform three_chunks true second_write_fails 0 0) session_start []
            three_chunks).2) = [⟨[1, 2, 3, 4], 4⟩, ⟨[5, 6, 7], 3⟩] := by
  refine ⟨rfl, ?_⟩
  rw [(flash_writes_prefix_through_first_failure
    (example_platform three_chunks true second_write_fails 0 0) session_start [] three_chunks
    rfl).1]
  decide

/-- C2, as stated, fails: when the write of the first of two chunks (4 and 3
bytes) fails, the second chunk is discarded without being counted, and the
counter ends at 4, not at the 7 bytes transported. -/
theorem binary_file_size_skips_discarded_chunks :
    (deliver (example_platform two_chunks true first_write_fails 0 0) session_start []
        two_chunks).1.binary_file_size = 4
      ∧ total_len two_chunks = 7
      ∧ (deliver (example_platform two_chunks true first_write_fails 0 0) session_start []
          two_chunks).1.binary_file_size ≠ (total_len two_chunks : Int) := by
  decide

/-- C2, amended: within a session (failure flag false and counter 0 when the
first chunk arrives) the byte counter ends at the sum of the lengths of the
chunks passed to `esp_ota_write`, that is of the delivered chunks up to and
including the first one whose write fails; chunks delivered after a write
failure are not counted.  The counter is an `int` updated in 32-bit `size_t`
arithmetic: it holds that sum reduced to 32-bit two's complement, which is the
sum itself whenever the sum is below `2 ^ 31`. -/
theorem binary_file_size_counts_through_first_failure (p : Platform) (u : update_info_t)
    (tr : List Event) (chunks : List Chunk) (h : u.error = false)
    (h0 : u.binary_file_size = 0) :
    (deliver p u tr chunks).1.binary_file_size
        = int_of_size_t (total_len (chunks_through_first_failure p u.handle tr chunks))
      ∧ (total_len (chunks_through_first_failure p u.handle tr chunks) < 2 ^ 31 →
          (deliver p u tr chunks).1.binary_file_size
            = (total_len (chunks_through_first_failure p u.handle tr chunks) : Int)) := by
  have key := deliver_size p u tr chunks 0 h (by rw [h0]; rfl)
  rw [Nat.zero_add] at key
  refine ⟨key, fun hlt => ?_⟩
  rw [key, int_of_size_t_small _ hlt]

theorem binary_file_size_counts_through_first_failure_witness :
    session_start.error = false ∧ session_start.binary_file_size = 0
      ∧ total_len (chunks_through_first_failure
          (example_platform three_chunks true second_write_fails 0 0) session_start.handle []
          three_chunks) < 2 ^ 31
      ∧ (deliver (example_platform three_chunks true second_write_fails 0 0) session_start []
          three_chunks).1.binary_file_size = 7 := by
  refine ⟨rfl, rfl, by decide, ?_⟩
  rw [(binary_file_size_counts_through_first_failure
    (example_platform three_chunks true second_write_fails 0 0) session_start [] three_chunks
    rfl rfl).2 (by decide)]
  decide


/-! ## The exit paths of `update_firmware` -/

/-- The failure flag is set at the end of a delivery exactly when one of the
`esp_ota_write` calls made for it failed. -/
theorem deliver_error_iff (p : Platform) (u : update_info_t) (tr : List Event) (cs : List Chunk)
    (h : u.error = false) :
    (deliver p u tr cs).1.error = true ↔
      ∃ c r, Event.esp_ota_write u.handle c r ∈ write_log p u.handle tr cs ∧ r ≠ ESP_OK := by
  induction cs generalizing u tr with
  | nil => simp [deliver, write_log, h]
  | cons c cs ih =>
    by_cases hw : p.esp_ota_write tr u.handle c = ESP_OK
    · rw [deliver_cons_ok p u tr c cs h hw,
        ih { u with binary_file_size := int_add_assign_size_t u.binary_file_size c.len } _ h]
      simp only [write_log, hw, ne_eq, not_true_eq_false, if_false, List.mem_cons]
      constructor
      · rintro ⟨c', r, hm, hr⟩
        exact ⟨c', r, Or.inr hm, hr⟩
      · rintro ⟨c', r, hm | hm, hr⟩
        · simp only [Event.esp_ota_write.injEq] at hm
          exact absurd hm.2.2 hr
        · exact ⟨c', r, hm, hr⟩
    · rw [deliver_cons_fail p u tr c cs h hw]
      simp only [write_log, hw, ne_eq, not_false_eq_true, if_true, List.mem_singleton, true_iff]
      exact ⟨c, _, rfl, hw⟩

/-- The four ways in which `update_firmware` ends once the flash session is
open: abort after a failed download or a failed `esp_ota_end`; return true
after a write failure; abort after a failed commit; restart.  `wl` is the log
of the `esp_ota_write` calls. -/
theorem update_firmware_download_paths (p : Platform) (u : update_info_t) (tr : List Event)
    (part : esp_partition_t) (url : List Nat) (hu : u.error = false)
    (hs : u.semaphore = some false) (R : Run Bool)
    (hR : R = update_firmware_download p u tr part url) :
    ∃ wl ok e,
      (∀ x ∈ wl, ∃ c r, x = Event.esp_ota_write u.handle c r) ∧
      (R.info.error = true ↔ ∃ c r, Event.esp_ota_write u.handle c r ∈ wl ∧ r ≠ ESP_OK) ∧
      (((ok = false ∨ e ≠ ESP_OK) ∧ R.outcome = .returned false
          ∧ R.trace = tr ++ (Event.h2client_do_request url :: wl
              ++ [Event.h2client_do_request_returned ok, Event.esp_ota_end u.handle e,
                  Event.xSemaphoreGive])
          ∧ R.info.semaphore = some true)
        ∨ (ok = true ∧ e = ESP_OK ∧ R.info.error = true ∧ R.outcome = .returned true
          ∧ R.trace = tr ++ (Event.h2client_do_request url :: wl
              ++ [Event.h2client_do_request_returned ok, Event.esp_ota_end u.handle e,
                  Event.xSemaphoreGive])
          ∧ R.info.semaphore = some true)
        ∨ (∃ err, err ≠ ESP_OK ∧ ok = true ∧ e = ESP_OK ∧ R.info.error = false
          ∧ R.outcome = .returned false
          ∧ R.trace = tr ++ (Event.h2client_do_request url :: wl
              ++ [Event.h2client_do_request_returned ok, Event.esp_ota_end u.handle e,
                  Event.esp_ota_set_boot_partition part err, Event.xSemaphoreGive])
          ∧ R.info.semaphore = some true)
        ∨ (ok = true ∧ e = ESP_OK ∧ R.info.error = false ∧ R.outcome = .restarted
          ∧ R.trace = tr ++ (Event.h2client_do_request url :: wl
              ++ [Event.h2client_do_request_returned ok, Event.esp_ota_end u.handle e,
                  Event.esp_ota_set_boot_partition part ESP_OK, Event.esp_restart])
          ∧ R.info.semaphore = some false)) := by
  have hd := deliver_trace p u (tr ++ [Event.h2client_do_request url])
    (p.h2client_do_request_callback tr url).chunks hu
  have hh := deliver_handle p u (tr ++ [Event.h2client_do_request url])
    (p.h2client_do_request_callback tr url).chunks
  have he := deliver_error_iff p u (tr ++ [Event.h2client_do_request url])
    (p.h2client_do_request_callback tr url).chunks hu
  have hw := write_log_all_writes p u.handle (tr ++ [Event.h2client_do_request url])
    (p.h2client_do_request_callback tr url).chunks
  unfold update_firmware_download update_firmware_error at hR
  simp only [] at hR
  generalize p.h2client_do_request_callback tr url = resp at *
  obtain ⟨chunks, ok⟩ := resp
  generalize write_log p u.handle (tr ++ [Event.h2client_do_request url]) chunks = wl at *
  generalize deliver p u (tr ++ [Event.h2client_do_request url]) chunks = D at *
  obtain ⟨u', tr'⟩ := D
  obtain ⟨hh1, hh2⟩ := hh
  simp only [] at hd hh1 hh2 he hR
  subst hd
  rw [hh1, hh2, hs] at hR
  refine ⟨wl, ok, p.esp_ota_end
    (tr ++ [Event.h2client_do_request url] ++ wl ++ [Event.h2client_do_request_returned ok])
    u.handle, hw, ?_, ?_⟩
  · rw [← he, hR]
    repeat' split
    all_goals rfl
  · generalize p.esp_ota_end
      (tr ++ [Event.h2client_do_request url] ++ wl ++ [Event.h2client_do_request_returned ok])
      u.handle = e at *
    generalize p.esp_ota_set_boot_partition
      (tr ++ [Event.h2client_do_request url] ++ wl ++ [Event.h2client_do_request_returned ok]
        ++ [Event.esp_ota_end u.handle e]) part = err at *
    cases ok
    · left
      simp [hR, xSemaphoreGive]
    · by_cases hend : e = ESP_OK
      · cases herr : u'.error
        · by_cases hc : err = ESP_OK
          · right; right; right
            simp [hR, hend, herr, hc, hh2, hs]
          · right; right; left
            refine ⟨err, hc, ?_⟩
            simp [hR, hend, herr, hc, xSemaphoreGive]
        · right; left
          simp [hR, hend, herr, xSemaphoreGive]
      · left
        simp [hR, hend, xSemaphoreGive]


/-- Every run of `update_firmware` follows one of its exit paths; for each path
the outcome, the calls made, in order and with their results, and the final
state of the semaphore. -/
theorem update_firmware_paths (p : Platform) (cfg : Config) (u : update_info_t)
    (tr : List Event) (new_version : List Nat) (R : Run Bool)
    (hR : R = update_firmware p cfg u tr new_version) :
    (u.semaphore = none ∧ R.outcome = .undefined_behaviour ∧ R.trace = tr ∧ R.info = u)
    ∨ (u.semaphore = some false ∧ R.outcome = .returned false
        ∧ R.trace = tr ++ [Event.xSemaphoreTake false] ∧ R.info = u)
    ∨ (u.semaphore = some true ∧ ∃ c rn,
        (R.outcome = .returned false
          ∧ R.trace = tr ++ [Event.xSemaphoreTake true, Event.esp_ota_get_boot_partition c,
              Event.esp_ota_get_running_partition rn, Event.xSemaphoreGive]
          ∧ R.info.semaphore = some true
          ∧ ((p.sprintf (oth2a_bin_file_template cfg) [c_str new_version]).1 < 0
            ∨ (p.sprintf fmt_s_slash_s [c_str cfg.CONFIG_OTH2A_BASE_URL,
                (p.sprintf (oth2a_bin_file_template cfg) [c_str new_version]).2]).1 < 0
            ∨ c = none))
        ∨ (R.outcome = .undefined_behaviour
          ∧ R.trace = tr ++ [Event.xSemaphoreTake true, Event.esp_ota_get_boot_partition c,
              Event.esp_ota_get_running_partition rn]
          ∧ rn = none)
        ∨ (R.outcome = .undefined_behaviour
          ∧ R.trace = tr ++ [Event.xSemaphoreTake true, Event.esp_ota_get_boot_partition c,
              Event.esp_ota_get_running_partition rn,
              Event.esp_ota_get_next_update_partition none])
        ∨ (∃ part err, err ≠ ESP_OK ∧ R.outcome = .returned false
          ∧ R.trace = tr ++ [Event.xSemaphoreTake true, Event.esp_ota_get_boot_partition c,
              Event.esp_ota_get_running_partition rn,
              Event.esp_ota_get_next_update_partition (some part),
              Event.esp_ota_begin part err, Event.xSemaphoreGive]
          ∧ R.info.semaphore = some true)
        ∨ (∃ part url h wl ok e,
            (∀ x ∈ wl, ∃ c r, x = Event.esp_ota_write h c r) ∧
            (R.info.error = true ↔ ∃ c r, Event.esp_ota_write h c r ∈ wl ∧ r ≠ ESP_OK) ∧
            (((ok = false ∨ e ≠ ESP_OK) ∧ R.outcome = .returned false
                ∧ R.trace = tr ++ ([Event.xSemaphoreTake true, Event.esp_ota_get_boot_partition c,
                    Event.esp_ota_get_running_partition rn,
                    Event.esp_ota_get_next_update_partition (some part),
                    Event.esp_ota_begin part ESP_OK, Event.h2client_do_request url] ++ wl
                    ++ [Event.h2client_do_request_returned ok, Event.esp_ota_end h e,
                        Event.xSemaphoreGive])
                ∧ R.info.semaphore = some true)
              ∨ (ok = true ∧ e = ESP_OK ∧ R.info.error = true ∧ R.outcome = .returned true
                ∧ R.trace = tr ++ ([Event.xSemaphoreTake true, Event.esp_ota_get_boot_partition c,
                    Event.esp_ota_get_running_partition rn,
                    Event.esp_ota_get_next_update_partition (some part),
                    Event.esp_ota_begin part ESP_OK, Event.h2client_do_request url] ++ wl
                    ++ [Event.h2client_do_request_returned ok, Event.esp_ota_end h e,
                        Event.xSemaphoreGive])
                ∧ R.info.semaphore = some true)
              ∨ (∃ err, err ≠ ESP_OK ∧ ok = true ∧ e = ESP_OK ∧ R.info.error = false
                ∧ R.outcome = .returned false
                ∧ R.trace = tr ++ ([Event.xSemaphoreTake true, Event.esp_ota_get_boot_partition c,
                    Event.esp_ota_get_running_partition rn,
                    Event.esp_ota_get_next_update_partition (some part),
                    Event.esp_ota_begin part ESP_OK, Event.h2client_do_request url] ++ wl
                    ++ [Event.h2client_do_request_returned ok, Event.esp_ota_end h e,
                        Event.esp_ota_set_boot_partition part err, Event.xSemaphoreGive])
                ∧ R.info.semaphore = some true)
              ∨ (ok = true ∧ e = ESP_OK ∧ R.info.error = false ∧ R.outcome = .restarted
                ∧ R.trace = tr ++ ([Event.xSemaphoreTake true, Event.esp_ota_get_boot_partition c,
                    Event.esp_ota_get_running_partition rn,
                    Event.esp_ota_get_next_update_partition (some part),
                    Event.esp_ota_begin part ESP_OK, Event.h2client_do_request url] ++ wl
                    ++ [Event.h2client_do_request_returned ok, Event.esp_ota_end h e,
                        Event.esp_ota_set_boot_partition part ESP_OK, Event.esp_restart])
                ∧ R.info.semaphore = some false)))) := by
  unfold update_firmware at hR
  cases hsem : u.semaphore with
  | none =>
    left
    rw [hsem] at hR
    simp [hR, hsem]
  | some a =>
    rw [hsem] at hR
    cases a with
    | false =>
      right; left
      simp only [xSemaphoreTake, Bool.not_false, if_true] at hR
      subst hR
      refine ⟨rfl, rfl, rfl, ?_⟩
      cases u
      simp only [] at hsem ⊢
      rw [hsem]
    | true =>
      right; right
      refine ⟨rfl, p.esp_ota_get_boot_partition (tr ++ [Event.xSemaphoreTake true]),
        p.esp_ota_get_running_partition (tr ++ [Event.xSemaphoreTake true]
          ++ [Event.esp_ota_get_boot_partition
            (p.esp_ota_get_boot_partition (tr ++ [Event.xSemaphoreTake true]))]), ?_⟩
      simp only [xSemaphoreTake, Bool.not_true, Bool.false_eq_true, if_false] at hR
      generalize p.esp_ota_get_boot_partition (tr ++ [Event.xSemaphoreTake true]) = c at *
      generalize p.esp_ota_get_running_partition (tr ++ [Event.xSemaphoreTake true]
          ++ [Event.esp_ota_get_boot_partition c]) = rn at *
      generalize p.sprintf (oth2a_bin_file_template cfg) [c_str new_version] = f at *
      generalize p.sprintf fmt_s_slash_s [c_str cfg.CONFIG_OTH2A_BASE_URL, f.2] = furl at *
      by_cases hf : f.1 < 0
      · left
        simp [hR, hf, update_firmware_error, xSemaphoreGive]
      · by_cases hfu : furl.1 < 0
        · left
          simp [hR, hf, hfu, update_firmware_error, xSemaphoreGive]
        · cases c with
          | none =>
            left
            simp [hR, hf, hfu, update_firmware_error, xSemaphoreGive]
          | some cp =>
            right
            cases rn with
            | none =>
              left
              simp [hR, hf, hfu]
            | some rp =>
              right
              simp only [hf, hfu, if_false] at hR
              generalize p.esp_ota_get_next_update_partition
                (tr ++ [Event.xSemaphoreTake true] ++ [Event.esp_ota_get_boot_partition (some cp)]
                  ++ [Event.esp_ota_get_running_partition (some rp)]) = nx at *
              cases nx with
              | none =>
                left
                simp [hR]
              | some part =>
                right
                simp only [] at hR
                generalize p.esp_ota_begin
                  (tr ++ [Event.xSemaphoreTake true]
                    ++ [Event.esp_ota_get_boot_partition (some cp)]
                    ++ [Event.esp_ota_get_running_partition (some rp)]
                    ++ [Event.esp_ota_get_next_update_partition (some part)]) part u.handle
                  = b at *
                by_cases hb : b.1 = ESP_OK
                · right
                  simp only [hb, ne_eq, not_true_eq_false, if_false] at hR
                  obtain ⟨wl, ok, e, h1, h2, h3⟩ := update_firmware_download_paths p _ _ part
                    furl.2 rfl rfl R hR
                  refine ⟨part, furl.2, b.2, wl, ok, e, h1, h2, ?_⟩
                  simpa [List.append_assoc] using h3
                · left
                  refine ⟨part, b.1, hb, ?_⟩
                  simp [hR, hb, update_firmware_error, xSemaphoreGive]


theorem countP_of_all_writes (wl : List Event) (h : esp_ota_handle_t) (k : Event → Bool)
    (hk : ∀ h c r, k (Event.esp_ota_write h c r) = false)
    (hw : ∀ x ∈ wl, ∃ c r, x = Event.esp_ota_write h c r) : wl.countP k = 0 := by
  rw [List.countP_eq_zero]
  intro e he
  obtain ⟨c, r, rfl⟩ := hw e he
  simp [hk]

/-- C7: every run of `update_firmware` that acquired the semaphore and returns
to its caller, with either return value, calls `xSemaphoreGive` exactly once
after the acquisition, as its last call, and leaves the semaphore available. -/
theorem lock_released_on_every_return (p : Platform) (cfg : Config) (u : update_info_t)
    (tr : List Event) (new_version : List Nat) (b : Bool)
    (hsem : u.semaphore = some true)
    (hret : (update_firmware p cfg u tr new_version).outcome = .returned b) :
    (∃ mid, events_since tr (update_firmware p cfg u tr new_version).trace
          = Event.xSemaphoreTake true :: (mid ++ [Event.xSemaphoreGive])
        ∧ mid.countP is_xSemaphoreGive = 0)
      ∧ (events_since tr (update_firmware p cfg u tr new_version).trace).countP
          is_xSemaphoreGive = 1
      ∧ (update_firmware p cfg u tr new_version).info.semaphore = some true := by
  have hg : ∀ h c r, is_xSemaphoreGive (Event.esp_ota_write h c r) = false := fun _ _ _ => rfl
  rcases update_firmware_paths p cfg u tr new_version _ rfl with
    ⟨hs, -⟩ | ⟨hs, -⟩ | ⟨-, c, rn, hp⟩
  · rw [hsem] at hs; cases hs
  · rw [hsem] at hs; cases hs
  · rcases hp with ⟨-, ht, hi, -⟩ | ⟨ho, -⟩ | ⟨ho, -⟩ | ⟨part, err, -, -, ht, hi⟩
      | ⟨part, url, h, wl, ok, e, hw, -, hd⟩
    · rw [ht, events_since_append]
      exact ⟨⟨[Event.esp_ota_get_boot_partition c, Event.esp_ota_get_running_partition rn],
        rfl, by simp [is_xSemaphoreGive]⟩, by simp [is_xSemaphoreGive], hi⟩
    · rw [ho] at hret; cases hret
    · rw [ho] at hret; cases hret
    · rw [ht, events_since_append]
      exact ⟨⟨[Event.esp_ota_get_boot_partition c, Event.esp_ota_get_running_partition rn,
        Event.esp_ota_get_next_update_partition (some part), Event.esp_ota_begin part err],
        rfl, by simp [is_xSemaphoreGive]⟩, by simp [is_xSemaphoreGive], hi⟩
    · have hc := countP_of_all_writes wl h is_xSemaphoreGive hg hw
      rcases hd with ⟨-, -, ht, hi⟩ | ⟨-, -, -, -, ht, hi⟩ | ⟨err, -, -, -, -, -, ht, hi⟩
        | ⟨-, -, -, ho, -⟩
      · rw [ht, events_since_append]
        exact ⟨⟨[Event.esp_ota_get_boot_partition c, Event.esp_ota_get_running_partition rn,
          Event.esp_ota_get_next_update_partition (some part), Event.esp_ota_begin part ESP_OK,
          Event.h2client_do_request url] ++ wl
          ++ [Event.h2client_do_request_returned ok, Event.esp_ota_end h e],
          by simp, by simp [is_xSemaphoreGive, hc]⟩, by simp [is_xSemaphoreGive, hc], hi⟩
      · rw [ht, events_since_append]
        exact ⟨⟨[Event.esp_ota_get_boot_partition c, Event.esp_ota_get_running_partition rn,
          Event.esp_ota_get_next_update_partition (some part), Event.esp_ota_begin part ESP_OK,
          Event.h2client_do_request url] ++ wl
          ++ [Event.h2client_do_request_returned ok, Event.esp_ota_end h e],
          by simp, by simp [is_xSemaphoreGive, hc]⟩, by simp [is_xSemaphoreGive, hc], hi⟩
      · rw [ht, events_since_append]
        exact ⟨⟨[Event.esp_ota_get_boot_partition c, Event.esp_ota_get_running_partition rn,
          Event.esp_ota_get_next_update_partition (some part), Event.esp_ota_begin part ESP_OK,
          Event.h2client_do_request url] ++ wl
          ++ [Event.h2client_do_request_returned ok, Event.esp_ota_end h e,
            Event.esp_ota_set_boot_partition part err],
          by simp, by simp [is_xSemaphoreGive, hc]⟩, by simp [is_xSemaphoreGive, hc], hi⟩
      · rw [ho] at hret; cases hret

theorem lock_released_on_every_return_witness :
    idle_info.semaphore = some true
      ∧ (update_firmware (example_platform three_chunks false writes_ok 0 0) example_config
          idle_info [] version_2_0_1).outcome = .returned false
      ∧ (events_since [] (update_firmware (example_platform three_chunks false writes_ok 0 0)
          example_config idle_info [] version_2_0_1).trace).countP is_xSemaphoreGive = 1
      ∧ (update_firmware (example_platform three_chunks false writes_ok 0 0) example_config
          idle_info [] version_2_0_1).info.semaphore = some true :=
  ⟨rfl, by decide,
    (lock_released_on_every_return (example_platform three_chunks false writes_ok 0 0)
      example_config idle_info [] version_2_0_1 false rfl (by decide)).2⟩

theorem mem_of_all_writes (wl : List Event) (h : esp_ota_handle_t) (x : Event)
    (hx : is_esp_ota_write x = false)
    (hw : ∀ x ∈ wl, ∃ c r, x = Event.esp_ota_write h c r) : x ∉ wl := by
  intro hm
  obtain ⟨c, r, rfl⟩ := hw x hm
  simp [is_esp_ota_write] at hx

/-- C4: in every run of `update_firmware`, `esp_ota_set_boot_partition` is
called at most once, and whenever it is called, `h2client_do_request` had
returned true, `esp_ota_end` had returned `ESP_OK`, `update_info.error` is false
(no `esp_ota_write` of the run failed), and its argument is the partition that
`esp_ota_get_next_update_partition` returned and `esp_ota_begin` opened. -/
theorem commit_only_after_complete_download (p : Platform) (cfg : Config)
    (u : update_info_t) (tr : List Event) (new_version : List Nat) :
    (events_since tr (update_firmware p cfg u tr new_version).trace).countP
        is_esp_ota_set_boot_partition ≤ 1
      ∧ ∀ part res, Event.esp_ota_set_boot_partition part res
            ∈ events_since tr (update_firmware p cfg u tr new_version).trace →
          Event.h2client_do_request_returned true
              ∈ events_since tr (update_firmware p cfg u tr new_version).trace
            ∧ (∃ h, Event.esp_ota_end h ESP_OK
              ∈ events_since tr (update_firmware p cfg u tr new_version).trace)
            ∧ (update_firmware p cfg u tr new_version).info.error = false
            ∧ (∀ h c r, Event.esp_ota_write h c r
                ∈ events_since tr (update_firmware p cfg u tr new_version).trace → r = ESP_OK)
            ∧ Event.esp_ota_get_next_update_partition (some part)
              ∈ events_since tr (update_firmware p cfg u tr new_version).trace
            ∧ Event.esp_ota_begin part ESP_OK
              ∈ events_since tr (update_firmware p cfg u tr new_version).trace := by
  have hg : ∀ h c r, is_esp_ota_set_boot_partition (Event.esp_ota_write h c r) = false :=
    fun _ _ _ => rfl
  rcases update_firmware_paths p cfg u tr new_version _ rfl with
    ⟨-, -, ht, -⟩ | ⟨-, -, ht, -⟩ | ⟨-, c, rn, hp⟩
  · have : events_since tr (update_firmware p cfg u tr new_version).trace = [] := by
      rw [ht]; simpa using events_since_append tr []
    rw [this]; simp
  · rw [ht, events_since_append]; simp [is_esp_ota_set_boot_partition]
  · rcases hp with ⟨-, ht, -⟩ | ⟨-, ht, -⟩ | ⟨-, ht⟩ | ⟨part, err, -, -, ht, -⟩
      | ⟨part, url, h, wl, ok, e, hw, herr, hd⟩
    · rw [ht, events_since_append]; simp [is_esp_ota_set_boot_partition]
    · rw [ht, events_since_append]; simp [is_esp_ota_set_boot_partition]
    · rw [ht, events_since_append]; simp [is_esp_ota_set_boot_partition]
    · rw [ht, events_since_append]; simp [is_esp_ota_set_boot_partition]
    · have hc := countP_of_all_writes wl h is_esp_ota_set_boot_partition hg hw
      have hn : ∀ part res, Event.esp_ota_set_boot_partition part res ∉ wl :=
        fun part res => mem_of_all_writes wl h _ rfl hw
      have hwr : (update_firmware p cfg u tr new_version).info.error = false →
          ∀ h' c r, Event.esp_ota_write h' c r ∈ wl → r = ESP_OK := by
        intro hf h' c r hm
        by_contra hne
        obtain ⟨c', r', heq⟩ := hw _ hm
        have hh : h' = h := by
          simp only [Event.esp_ota_write.injEq] at heq
          exact heq.1
        subst hh
        have := herr.2 ⟨c, r, hm, hne⟩
        rw [hf] at this
        cases this
      rcases hd with ⟨-, -, ht, -⟩ | ⟨-, -, -, -, ht, -⟩ | ⟨err, -, hok, he, hf, -, ht, -⟩
        | ⟨hok, he, hf, -, ht, -⟩
      · rw [ht, events_since_append]; simp [is_esp_ota_set_boot_partition, hc, hn]
      · rw [ht, events_since_append]; simp [is_esp_ota_set_boot_partition, hc, hn]
      · rw [ht, events_since_append]
        subst hok he
        refine ⟨by simp [is_esp_ota_set_boot_partition, hc], ?_⟩
        intro part' res hm
        simp [hn] at hm
        obtain ⟨rfl, -⟩ := hm
        refine ⟨by simp, ⟨h, by simp⟩, hf, ?_, by simp, by simp⟩
        intro h' c' r hm'
        simp at hm'
        exact hwr hf h' c' r hm'
      · rw [ht, events_since_append]
        subst hok he
        refine ⟨by simp [is_esp_ota_set_boot_partition, hc], ?_⟩
        intro part' res hm
        simp [hn] at hm
        obtain ⟨rfl, -⟩ := hm
        refine ⟨by simp, ⟨h, by simp⟩, hf, ?_, by simp, by simp⟩
        intro h' c' r hm'
        simp at hm'
        exact hwr hf h' c' r hm'

theorem commit_only_after_complete_download_witness :
    Event.esp_ota_set_boot_partition ota_1 ESP_OK
        ∈ events_since [] (update_firmware (example_platform three_chunks true writes_ok 0 0)
            example_config idle_info [] version_2_0_1).trace
      ∧ (update_firmware (example_platform three_chunks true writes_ok 0 0)
            example_config idle_info [] version_2_0_1).info.error = false
      ∧ Event.esp_ota_begin ota_1 ESP_OK
        ∈ events_since [] (update_firmware (example_platform three_chunks true writes_ok 0 0)
            example_config idle_info [] version_2_0_1).trace :=
  ⟨by decide,
    ((commit_only_after_complete_download (example_platform three_chunks true writes_ok 0 0)
      example_config idle_info [] version_2_0_1).2 ota_1 ESP_OK (by decide)).2.2.1,
    ((commit_only_after_complete_download (example_platform three_chunks true writes_ok 0 0)
      example_config idle_info [] version_2_0_1).2 ota_1 ESP_OK (by decide)).2.2.2.2.2⟩

/-- C5, as stated, fails: when everything up to `esp_ota_end` succeeds and
`esp_ota_set_boot_partition` returns `ESP_FAIL`, the attempt is aborted
(`update_firmware` returns false) although the commit call was made once. -/
theorem aborted_attempt_with_commit_call :
    (update_firmware (example_platform three_chunks true writes_ok 0 ESP_FAIL) example_config
        idle_info [] version_2_0_1).outcome = .returned false
      ∧ (events_since [] (update_firmware
          (example_platform three_chunks true writes_ok 0 ESP_FAIL) example_config
          idle_info [] version_2_0_1).trace).countP is_esp_ota_set_boot_partition = 1 := by
  decide

/-- C5, amended: a run of `update_firmware` that returns false makes no
`esp_restart` call and no successful commit: it calls
`esp_ota_set_boot_partition` at most once, and every such call returned an
error. -/
theorem aborted_attempt_no_commit_no_restart (p : Platform) (cfg : Config)
    (u : update_info_t) (tr : List Event) (new_version : List Nat)
    (hret : (update_firmware p cfg u tr new_version).outcome = .returned false) :
    (events_since tr (update_firmware p cfg u tr new_version).trace).countP is_esp_restart = 0
      ∧ (events_since tr (update_firmware p cfg u tr new_version).trace).countP
          is_esp_ota_set_boot_partition ≤ 1
      ∧ ∀ part res, Event.esp_ota_set_boot_partition part res
            ∈ events_since tr (update_firmware p cfg u tr new_version).trace → res ≠ ESP_OK := by
  have hg : ∀ h c r, is_esp_restart (Event.esp_ota_write h c r) = false := fun _ _ _ => rfl
  have hg' : ∀ h c r, is_esp_ota_set_boot_partition (Event.esp_ota_write h c r) = false :=
    fun _ _ _ => rfl
  rcases update_firmware_paths p cfg u tr new_version _ rfl with
    ⟨-, -, ht, -⟩ | ⟨-, -, ht, -⟩ | ⟨-, c, rn, hp⟩
  · have : events_since tr (update_firmware p cfg u tr new_version).trace = [] := by
      rw [ht]; simpa using events_since_append tr []
    rw [this]; simp
  · rw [ht, events_since_append]; simp [is_esp_restart, is_esp_ota_set_boot_partition]
  · rcases hp with ⟨-, ht, -⟩ | ⟨-, ht, -⟩ | ⟨-, ht⟩ | ⟨part, err, -, -, ht, -⟩
      | ⟨part, url, h, wl, ok, e, hw, -, hd⟩
    · rw [ht, events_since_append]; simp [is_esp_restart, is_esp_ota_set_boot_partition]
    · rw [ht, events_since_append]; simp [is_esp_restart, is_esp_ota_set_boot_partition]
    · rw [ht, events_since_append]; simp [is_esp_restart, is_esp_ota_set_boot_partition]
    · rw [ht, events_since_append]; simp [is_esp_restart, is_esp_ota_set_boot_partition]
    · have hc := countP_of_all_writes wl h is_esp_restart hg hw
      have hc' := countP_of_all_writes wl h is_esp_ota_set_boot_partition hg' hw
      have hn : ∀ part res, Event.esp_ota_set_boot_partition part res ∉ wl :=
        fun part res => mem_of_all_writes wl h _ rfl hw
      rcases hd with ⟨-, -, ht, -⟩ | ⟨-, -, -, ho, -⟩ | ⟨err, hne, -, -, -, -, ht, -⟩
        | ⟨-, -, -, ho, -⟩
      · rw [ht, events_since_append]
        simp [is_esp_restart, is_esp_ota_set_boot_partition, hc, hc', hn]
      · rw [ho] at hret; cases hret
      · rw [ht, events_since_append]
        refine ⟨by simp [is_esp_restart, hc], by simp [is_esp_ota_set_boot_partition, hc'], ?_⟩
        intro part' res hm
        simp [hn] at hm
        rw [hm.2]
        exact hne
      · rw [ho] at hret; cases hret

theorem aborted_attempt_no_commit_no_restart_witness :
    (update_firmware (example_platform three_chunks true writes_ok ESP_FAIL 0) example_config
        idle_info [] version_2_0_1).outcome = .returned false
      ∧ (events_since [] (update_firmware
          (example_platform three_chunks true writes_ok ESP_FAIL 0) example_config
          idle_info [] version_2_0_1).trace).countP is_esp_restart = 0 :=
  ⟨by decide,
    (aborted_attempt_no_commit_no_restart
      (example_platform three_chunks true writes_ok ESP_FAIL 0) example_config
      idle_info [] version_2_0_1 (by decide)).1⟩

/-- C6: a fully successful attempt.  When the lock is available on entry, both
`sprintf` calls that build the download path succeed, and no call of the run
reports a failure (the boot, running and next update partitions exist,
`esp_ota_begin` returns `ESP_OK`, the download returns true, every
`esp_ota_write` returns `ESP_OK`, `esp_ota_end` returns `ESP_OK` and
`esp_ota_set_boot_partition` returns `ESP_OK`), then `update_firmware` ends in
`esp_restart`: its last two calls are `esp_ota_set_boot_partition` on the
opened partition and then `esp_restart`, each made exactly once in the run, and
it makes no `xSemaphoreGive` call. -/
theorem successful_attempt_commits_and_restarts (p : Platform) (cfg : Config)
    (u : update_info_t) (tr : List Event) (new_version : List Nat)
    (hlock : u.semaphore = some true)
    (hfile : 0 ≤ (p.sprintf (oth2a_bin_file_template cfg) [c_str new_version]).1)
    (hurl : 0 ≤ (p.sprintf fmt_s_slash_s [c_str cfg.CONFIG_OTH2A_BASE_URL,
        (p.sprintf (oth2a_bin_file_template cfg) [c_str new_version]).2]).1)
    (hboot : Event.esp_ota_get_boot_partition none
      ∉ events_since tr (update_firmware p cfg u tr new_version).trace)
    (hrun : Event.esp_ota_get_running_partition none
      ∉ events_since tr (update_firmware p cfg u tr new_version).trace)
    (hnext : Event.esp_ota_get_next_update_partition none
      ∉ events_since tr (update_firmware p cfg u tr new_version).trace)
    (hbegin : ∀ part r, Event.esp_ota_begin part r
      ∈ events_since tr (update_firmware p cfg u tr new_version).trace → r = ESP_OK)
    (hdl : Event.h2client_do_request_returned false
      ∉ events_since tr (update_firmware p cfg u tr new_version).trace)
    (hwrite : ∀ h c r, Event.esp_ota_write h c r
      ∈ events_since tr (update_firmware p cfg u tr new_version).trace → r = ESP_OK)
    (hend : ∀ h r, Event.esp_ota_end h r
      ∈ events_since tr (update_firmware p cfg u tr new_version).trace → r = ESP_OK)
    (hcommit : ∀ part r, Event.esp_ota_set_boot_partition part r
      ∈ events_since tr (update_firmware p cfg u tr new_version).trace → r = ESP_OK) :
    (update_firmware p cfg u tr new_version).outcome = .restarted
      ∧ (∃ before part,
          events_since tr (update_firmware p cfg u tr new_version).trace
              = before ++ [Event.esp_ota_set_boot_partition part ESP_OK, Event.esp_restart]
            ∧ Event.esp_ota_begin part ESP_OK ∈ before
            ∧ before.countP is_esp_ota_set_boot_partition = 0
            ∧ before.countP is_esp_restart = 0)
      ∧ (events_since tr (update_firmware p cfg u tr new_version).trace).countP
          is_esp_ota_set_boot_partition = 1
      ∧ (events_since tr (update_firmware p cfg u tr new_version).trace).countP
          is_esp_restart = 1
      ∧ (events_since tr (update_firmware p cfg u tr new_version).trace).countP
          is_xSemaphoreGive = 0 := by
  have hg1 : ∀ h c r, is_esp_restart (Event.esp_ota_write h c r) = false := fun _ _ _ => rfl
  have hg2 : ∀ h c r, is_esp_ota_set_boot_partition (Event.esp_ota_write h c r) = false :=
    fun _ _ _ => rfl
  have hg3 : ∀ h c r, is_xSemaphoreGive (Event.esp_ota_write h c r) = false := fun _ _ _ => rfl
  rcases update_firmware_paths p cfg u tr new_version _ rfl with
    ⟨hs, -⟩ | ⟨hs, -⟩ | ⟨-, c, rn, hp⟩
  · rw [hlock] at hs; cases hs
  · rw [hlock] at hs; cases hs
  · rcases hp with ⟨-, ht, -, hf | hf | hf⟩ | ⟨-, ht, hf⟩ | ⟨-, ht⟩ | ⟨part, err, hne, -, ht, -⟩
      | ⟨part, url, h, wl, ok, e, hw, herr, hd⟩
    · omega
    · omega
    · rw [ht, events_since_append, hf] at hboot
      simp at hboot
    · rw [ht, events_since_append, hf] at hrun
      simp at hrun
    · rw [ht, events_since_append] at hnext
      simp at hnext
    · rw [ht, events_since_append] at hbegin
      exact absurd (hbegin part err (by simp)) hne
    · have hc1 := countP_of_all_writes wl h is_esp_restart hg1 hw
      have hc2 := countP_of_all_writes wl h is_esp_ota_set_boot_partition hg2 hw
      have hc3 := countP_of_all_writes wl h is_xSemaphoreGive hg3 hw
      rcases hd with ⟨hf, -, ht, -⟩ | ⟨-, -, hf, -, ht, -⟩ | ⟨err, hne, -, -, -, -, ht, -⟩
        | ⟨-, -, -, ho, ht, -⟩
      · rcases hf with hf | hf
        · rw [ht, events_since_append, hf] at hdl
          simp at hdl
        · rw [ht, events_since_append] at hend
          exact absurd (hend h e (by simp)) hf
      · obtain ⟨c', r, hm, hr⟩ := herr.1 hf
        rw [ht, events_since_append] at hwrite
        exact absurd (hwrite h c' r (by simp [hm])) hr
      · rw [ht, events_since_append] at hcommit
        exact absurd (hcommit part err (by simp)) hne
      · rw [ht, events_since_append]
        refine ⟨ho, ⟨[Event.xSemaphoreTake true, Event.esp_ota_get_boot_partition c,
            Event.esp_ota_get_running_partition rn,
            Event.esp_ota_get_next_update_partition (some part),
            Event.esp_ota_begin part ESP_OK, Event.h2client_do_request url] ++ wl
            ++ [Event.h2client_do_request_returned ok, Event.esp_ota_end h e], part,
          by simp, by simp, by simp [is_esp_ota_set_boot_partition, hc2],
          by simp [is_esp_restart, hc1]⟩,
          by simp [is_esp_ota_set_boot_partition, hc2], by simp [is_esp_restart, hc1],
          by simp [is_xSemaphoreGive, hc3]⟩

theorem successful_attempt_commits_and_restarts_witness :
    (update_firmware (example_platform three_chunks true writes_ok 0 0) example_config
        idle_info [] version_2_0_1).outcome = .restarted
      ∧ (events_since [] (update_firmware (example_platform three_chunks true writes_ok 0 0)
          example_config idle_info [] version_2_0_1).trace).countP
            is_esp_ota_set_boot_partition = 1
      ∧ (events_since [] (update_firmware (example_platform three_chunks true writes_ok 0 0)
          example_config idle_info [] version_2_0_1).trace).countP is_esp_restart = 1
      ∧ (events_since [] (update_firmware (example_platform three_chunks true writes_ok 0 0)
          example_config idle_info [] version_2_0_1).trace).countP is_xSemaphoreGive = 0 := by
  have hev : events_since [] (update_firmware (example_platform three_chunks true writes_ok 0 0)
      example_config idle_info [] version_2_0_1).trace
      = [Event.xSemaphoreTake true, Event.esp_ota_get_boot_partition (some ota_0),
          Event.esp_ota_get_running_partition (some ota_0),
          Event.esp_ota_get_next_update_partition (some ota_1),
          Event.esp_ota_begin ota_1 ESP_OK,
          Event.h2client_do_request
            [104, 47, 102, 119, 95, 50, 46, 48, 46, 49, 46, 98, 105, 110],
          Event.esp_ota_write 1 ⟨[1, 2, 3, 4], 4⟩ ESP_OK,
          Event.esp_ota_write 1 ⟨[5, 6, 7], 3⟩ ESP_OK,
          Event.esp_ota_write 1 ⟨[8, 9], 2⟩ ESP_OK,
          Event.h2client_do_request_returned true, Event.esp_ota_end 1 ESP_OK,
          Event.esp_ota_set_boot_partition ota_1 ESP_OK, Event.esp_restart] := by
    decide
  have h := successful_attempt_commits_and_restarts
    (example_platform three_chunks true writes_ok 0 0) example_config idle_info []
    version_2_0_1 rfl (by decide) (by decide) (by decide) (by decide) (by decide)
    (by intro part r hm; rw [hev] at hm; simp at hm; exact hm.2)
    (by decide)
    (by
      intro h c r hm
      rw [hev] at hm
      simp at hm
      rcases hm with hm | hm | hm <;> exact hm.2.2)
    (by intro h r hm; rw [hev] at hm; simp at hm; exact hm.2)
    (by intro part r hm; rw [hev] at hm; simp at hm; exact hm.2)
  exact ⟨h.1, h.2.2⟩

/-- C8: acquisition does not block, and a failed acquisition ends the attempt
with no effect.  If the semaphore is held when `update_firmware` is entered, the
function returns false, its only call is the failed `xSemaphoreTake` (no
partition query, no flash session, no request, no commit, no restart, no
`xSemaphoreGive`), and `update_info` is unchanged, so the lock stays held.
After a successful `oth2a_initialize` the semaphore is available, and of two
`xSemaphoreTake` calls without a release in between the first succeeds and the
second fails. -/
theorem busy_lock_ends_attempt (p : Platform) (cfg : Config) (u : update_info_t)
    (tr : List Event) (new_version : List Nat) (hheld : u.semaphore = some false) :
    (update_firmware p cfg u tr new_version).outcome = .returned false
      ∧ events_since tr (update_firmware p cfg u tr new_version).trace
          = [Event.xSemaphoreTake false]
      ∧ (update_firmware p cfg u tr new_version).info = u
      ∧ (∀ u0 tr0, p.xSemaphoreCreateBinary tr0 = true →
          ( oth2a_initialize p u0 tr0).outcome = .returned 0
            ∧ ( oth2a_initialize p u0 tr0).info.semaphore = some true)
      ∧ (xSemaphoreTake true).1 = true
      ∧ (xSemaphoreTake (xSemaphoreTake true).2).1 = false
      ∧ (xSemaphoreTake (xSemaphoreTake true).2).2 = false := by
  rcases update_firmware_paths p cfg u tr new_version _ rfl with
    ⟨hs, -⟩ | ⟨-, ho, ht, hi⟩ | ⟨hs, -⟩
  · rw [hheld] at hs; cases hs
  · rw [ht, events_since_append]
    refine ⟨ho, rfl, hi, ?_, rfl, rfl, rfl⟩
    intro u0 tr0 hc
    simp [ oth2a_initialize, hc, xSemaphoreGive]
  · rw [hheld] at hs; cases hs

theorem busy_lock_ends_attempt_witness :
    session_start.semaphore = some false
      ∧ (update_firmware (example_platform three_chunks true writes_ok 0 0) example_config
          session_start [] version_2_0_1).outcome = .returned false
      ∧ events_since [] (update_firmware (example_platform three_chunks true writes_ok 0 0)
          example_config session_start [] version_2_0_1).trace = [Event.xSemaphoreTake false]
      ∧ ( oth2a_initialize (example_platform three_chunks true writes_ok 0 0)
          session_start []).info.semaphore = some true :=
  have h := busy_lock_ends_attempt (example_platform three_chunks true writes_ok 0 0)
    example_config session_start [] version_2_0_1 rfl
  ⟨rfl, h.1, h.2.1, (h.2.2.2.1 session_start [] rfl).2⟩

/-- C1, the code at the failing input: the version check finds `"2.0.1"`, the
lock is free, the partitions exist, `esp_ota_begin` succeeds, the first
`esp_ota_write` fails, the download returns true and `esp_ota_end` returns
`ESP_OK`.  `oth2a_handle` returns true although `update_info.error` is set and
neither `esp_ota_set_boot_partition` nor `esp_restart` was called. -/
theorem handle_returns_true_after_write_failure :
    (oth2a_handle (example_platform two_chunks true first_write_fails 0 0) example_config
        idle_globals []).outcome = .returned true
      ∧ (oth2a_handle (example_platform two_chunks true first_write_fails 0 0) example_config
        idle_globals []).globals.update_info.error = true
      ∧ Event.esp_ota_write 1 ⟨[1, 2, 3, 4], 4⟩ 5379
        ∈ (oth2a_handle (example_platform two_chunks true first_write_fails 0 0) example_config
          idle_globals []).trace
      ∧ Event.h2client_do_request_returned true
        ∈ (oth2a_handle (example_platform two_chunks true first_write_fails 0 0) example_config
          idle_globals []).trace
      ∧ Event.esp_ota_end 1 ESP_OK
        ∈ (oth2a_handle (example_platform two_chunks true first_write_fails 0 0) example_config
          idle_globals []).trace
      ∧ (oth2a_handle (example_platform two_chunks true first_write_fails 0 0) example_config
        idle_globals []).trace.countP is_esp_ota_set_boot_partition = 0
      ∧ (oth2a_handle (example_platform two_chunks true first_write_fails 0 0) example_config
        idle_globals []).trace.countP is_esp_restart = 0 := by
  decide

/-- The only way `update_firmware` returns true: the download and
`esp_ota_end` succeeded, some `esp_ota_write` had failed, and no commit was
made. -/
theorem update_firmware_true_only_after_write_failure (p : Platform) (cfg : Config)
    (u : update_info_t) (tr : List Event) (new_version : List Nat)
    (hret : (update_firmware p cfg u tr new_version).outcome = .returned true) :
    (update_firmware p cfg u tr new_version).info.error = true
      ∧ (events_since tr (update_firmware p cfg u tr new_version).trace).countP
          is_esp_ota_set_boot_partition = 0 := by
  have hg : ∀ h c r, is_esp_ota_set_boot_partition (Event.esp_ota_write h c r) = false :=
    fun _ _ _ => rfl
  rcases update_firmware_paths p cfg u tr new_version _ rfl with
    ⟨-, ho, -⟩ | ⟨-, ho, -⟩ | ⟨-, c, rn, hp⟩
  · rw [ho] at hret; cases hret
  · rw [ho] at hret; cases hret
  · rcases hp with ⟨ho, -⟩ | ⟨ho, -⟩ | ⟨ho, -⟩ | ⟨part, err, -, ho, -⟩
      | ⟨part, url, h, wl, ok, e, hw, -, hd⟩
    · rw [ho] at hret; cases hret
    · rw [ho] at hret; cases hret
    · rw [ho] at hret; cases hret
    · rw [ho] at hret; cases hret
    · have hc := countP_of_all_writes wl h is_esp_ota_set_boot_partition hg hw
      rcases hd with ⟨-, ho, -⟩ | ⟨-, -, hf, -, ht, -⟩ | ⟨err, -, -, -, -, ho, -⟩
        | ⟨-, -, -, ho, -⟩
      · rw [ho] at hret; cases hret
      · rw [ht, events_since_append]
        exact ⟨hf, by simp [is_esp_ota_set_boot_partition, hc]⟩
      · rw [ho] at hret; cases hret
      · rw [ho] at hret; cases hret

/-! ## The version check -/

theorem newline_loop_set (size fuel i : Nat) (buf : List Nat) :
    newline_loop size fuel i true buf = (true, buf) := by
  cases fuel <;> simp [newline_loop]

/-- The loop of lines 92-97 started at index `i` with enough fuel: it replaces
the first newline at or after `i` and below `size` by a NUL, or leaves the
buffer unchanged when there is none. -/
theorem newline_loop_spec (size : Nat) :
    ∀ (fuel i : Nat) (pre suf : List Nat), pre.length = i → size - i ≤ fuel →
      size ≤ (pre ++ suf).length →
      newline_loop size fuel i false (pre ++ suf) =
        if (truncate_at_newline (suf.take (size - i))).length < size - i then
          (true, pre ++ suf.set (truncate_at_newline (suf.take (size - i))).length 0)
        else (false, pre ++ suf) := by
  intro fuel
  induction fuel with
  | zero =>
    intro i pre suf _ hf _
    have h0 : size - i = 0 := by omega
    simp [newline_loop, h0, truncate_at_newline]
  | succ fuel ih =>
    intro i pre suf hi hf hlen
    by_cases hlt : i < size
    · cases suf with
      | nil => simp at hlen; omega
      | cons x suf' =>
        have hget : (pre ++ x :: suf').getD i 0 = x := by
          subst hi
          rw [List.getD_eq_getElem?_getD, List.getElem?_append_right (Nat.le_refl _)]
          simp
        obtain ⟨k, hk⟩ : ∃ k, size - i = k + 1 := ⟨size - i - 1, by omega⟩
        by_cases hx : x = 10
        · subst hx
          rw [newline_loop]
          simp only [hlt, decide_True, Bool.not_false, Bool.and_self, if_true, hget]
          rw [newline_loop_set]
          subst hi
          simp [hk, truncate_at_newline]
        · rw [newline_loop]
          simp only [hlt, decide_True, Bool.not_false, Bool.and_self, if_true, hget, hx,
            if_false]
          have := ih (i + 1) (pre ++ [x]) suf' (by simp [hi]) (by omega)
            (by simp at hlen ⊢; omega)
          simp only [List.append_assoc, List.singleton_append] at this
          rw [this]
          have hk' : size - (i + 1) = k := by omega
          simp [hk, hk', truncate_at_newline, hx]
    · have h0 : size - i = 0 := by omega
      simp [newline_loop, hlt, h0, truncate_at_newline]

theorem truncate_at_newline_length_le (body : List Nat) :
    (truncate_at_newline body).length ≤ body.length := by
  induction body with
  | nil => simp [truncate_at_newline]
  | cons x xs ih =>
    by_cases hx : x = 10
    · simp [truncate_at_newline, hx]
    · simp only [truncate_at_newline] at ih ⊢
      simp [hx]
      omega

theorem truncate_at_newline_prefix (body : List Nat) :
    ∃ rest, body = truncate_at_newline body ++ rest :=
  ⟨body.dropWhile (fun b => b != 10), (List.takeWhile_append_dropWhile _ body).symm⟩

theorem c_str_append_nul (t r : List Nat) : c_str (t ++ 0 :: r) = c_str t := by
  induction t with
  | nil => simp [c_str]
  | cons x xs ih =>
    by_cases hx : x = 0
    · simp [c_str, hx]
    · simp only [c_str] at ih ⊢
      simp [hx, ih]

theorem c_str_of_no_nul (t : List Nat) (h : ∀ x ∈ t, x ≠ 0) : c_str t = t := by
  unfold c_str
  rw [List.takeWhile_eq_self_iff]
  intro x hx
  simpa using h x hx

theorem set_after_prefix (t r : List Nat) (h : r ≠ []) :
    (t ++ r).set t.length 0 = t ++ 0 :: r.tail := by
  cases r with
  | nil => exact absurd rfl h
  | cons y ys =>
    induction t with
    | nil => simp
    | cons x xs ih => simp [ih]

/-- What `oth2a_new_sw_available` does on a successful version request with
status 200 whose body fits: it returns, the buffer holds the body with a NUL at
the place of the first newline (or right after the body). -/
theorem oth2a_new_sw_available_success (p : Platform) (cfg : Config) (tr : List Event)
    (version_buffer : List Nat) (buffer_size : Nat)
    (hbase : strlen cfg.CONFIG_OTH2A_BASE_URL ≠ 0)
    (hbuf : buffer_size ≤ version_buffer.length)
    (hok : (version_response p cfg tr buffer_size).ok = true)
    (hstatus : (version_response p cfg tr buffer_size).status = 200)
    (hsize : (version_response p cfg tr buffer_size).body.length + 1 ≤ buffer_size) :
    ∃ rest,
      (oth2a_new_sw_available p cfg tr version_buffer buffer_size).buffer
          = truncate_at_newline (version_response p cfg tr buffer_size).body ++ 0 :: rest
      ∧ (oth2a_new_sw_available p cfg tr version_buffer buffer_size).outcome
          = .returned (strcmp_ne
              (truncate_at_newline (version_response p cfg tr buffer_size).body ++ 0 :: rest)
              cfg.VERSION)
      ∧ (oth2a_new_sw_available p cfg tr version_buffer buffer_size).buffer.length
          = version_buffer.length := by
  unfold version_response version_url at *
  unfold oth2a_new_sw_available
  simp only [hbase, if_false]
  generalize p.h2client_do_request_buffer tr _ _ = resp at *
  obtain ⟨ok, status, body⟩ := resp
  simp only [] at hok hstatus hsize
  subst hok hstatus
  have hle : body.length ≤ version_buffer.length := by omega
  simp only [store_body, hle, if_true]
  have hspec := newline_loop_spec body.length body.length 0 []
    (body ++ version_buffer.drop body.length) rfl (by omega) (by simp)
  simp only [List.nil_append, Nat.sub_zero, List.take_left'] at hspec
  have htl := truncate_at_newline_length_le body
  obtain ⟨rest', hrest⟩ := truncate_at_newline_prefix body
  have hne : rest' ++ version_buffer.drop body.length ≠ [] := by
    intro h
    have := congrArg List.length h
    simp at this
    omega
  have hset : (body ++ version_buffer.drop body.length).set (truncate_at_newline body).length 0
      = truncate_at_newline body ++ 0 :: (rest' ++ version_buffer.drop body.length).tail := by
    have := set_after_prefix (truncate_at_newline body)
      (rest' ++ version_buffer.drop body.length) hne
    rw [← List.append_assoc, ← hrest] at this
    exact this
  have hlen : body.length = (truncate_at_newline body).length + rest'.length := by
    have := congrArg List.length hrest
    simpa using this
  refine ⟨(rest' ++ version_buffer.drop body.length).tail, ?_⟩
  rw [hspec]
  by_cases hnl : (truncate_at_newline body).length < body.length
  · simp [hnl, hset]
    omega
  · have heq : (truncate_at_newline body).length = body.length := by omega
    have hlt : body.length < version_buffer.length := by omega
    rw [heq] at hset
    simp [hnl, hset, hlt, hle]
    omega

/-- C9: version normalisation.  For a non-empty base url, a version request
that succeeds with status 200 and a body of at most `buffer_size - 1` bytes,
`oth2a_new_sw_available` returns and leaves in `version_buffer` the body
truncated just before its first newline (the entire body when it has none),
followed by a NUL.  The C string in the buffer is therefore the C string of
the truncated body, which is the truncated body itself when it has no NUL
byte. -/
theorem version_buffer_holds_truncated_body (p : Platform) (cfg : Config) (tr : List Event)
    (version_buffer : List Nat) (buffer_size : Nat)
    (hbase : strlen cfg.CONFIG_OTH2A_BASE_URL ≠ 0)
    (hbuf : buffer_size ≤ version_buffer.length)
    (hok : (version_response p cfg tr buffer_size).ok = true)
    (hstatus : (version_response p cfg tr buffer_size).status = 200)
    (hsize : (version_response p cfg tr buffer_size).body.length + 1 ≤ buffer_size) :
    (∃ b, (oth2a_new_sw_available p cfg tr version_buffer buffer_size).outcome = .returned b)
      ∧ (oth2a_new_sw_available p cfg tr version_buffer buffer_size).buffer.take
            (truncate_at_newline (version_response p cfg tr buffer_size).body).length
          = truncate_at_newline (version_response p cfg tr buffer_size).body
      ∧ (oth2a_new_sw_available p cfg tr version_buffer buffer_size).buffer[
            (truncate_at_newline (version_response p cfg tr buffer_size).body).length]?
          = some 0
      ∧ c_str (oth2a_new_sw_available p cfg tr version_buffer buffer_size).buffer
          = c_str (truncate_at_newline (version_response p cfg tr buffer_size).body)
      ∧ ((∀ x ∈ truncate_at_newline (version_response p cfg tr buffer_size).body, x ≠ 0) →
          c_str (oth2a_new_sw_available p cfg tr version_buffer buffer_size).buffer
            = truncate_at_newline (version_response p cfg tr buffer_size).body) := by
  obtain ⟨rest, hb, ho, -⟩ := oth2a_new_sw_available_success p cfg tr version_buffer
    buffer_size hbase hbuf hok hstatus hsize
  rw [hb]
  refine ⟨⟨_, ho⟩, by simp, ?_, c_str_append_nul _ _, ?_⟩
  · rw [List.getElem?_append_right (Nat.le_refl _)]
    simp
  · intro hn
    rw [c_str_append_nul, c_str_of_no_nul _ hn]

theorem version_buffer_holds_truncated_body_witness :
    strlen example_config.CONFIG_OTH2A_BASE_URL ≠ 0
      ∧ (version_response (example_platform [] true writes_ok 0 0) example_config [] 12).body
          = [50, 46, 48, 46, 49, 10]
      ∧ c_str (oth2a_new_sw_available (example_platform [] true writes_ok 0 0) example_config []
          (List.replicate 12 0) 12).buffer = [50, 46, 48, 46, 49] := by
  refine ⟨by decide, by decide, ?_⟩
  rw [(version_buffer_holds_truncated_body (example_platform [] true writes_ok 0 0)
    example_config [] (List.replicate 12 0) 12 (by decide) (by decide) (by decide) (by decide)
    (by decide)).2.2.2.2 (by decide)]
  decide

/-- C10: for a non-empty base url and a version request that succeeds with
status 200 (body of at most `buffer_size - 1` bytes), `oth2a_new_sw_available`
returns whether the normalised version, as a C string, differs from `VERSION`.
For version strings without NUL byte: it returns true when the normalised
remote version differs from the running `VERSION`, and false when they are
equal. -/
theorem new_sw_available_iff_version_differs (p : Platform) (cfg : Config) (tr : List Event)
    (version_buffer : List Nat) (buffer_size : Nat)
    (hbase : strlen cfg.CONFIG_OTH2A_BASE_URL ≠ 0)
    (hbuf : buffer_size ≤ version_buffer.length)
    (hok : (version_response p cfg tr buffer_size).ok = true)
    (hstatus : (version_response p cfg tr buffer_size).status = 200)
    (hsize : (version_response p cfg tr buffer_size).body.length + 1 ≤ buffer_size) :
    (oth2a_new_sw_available p cfg tr version_buffer buffer_size).outcome
        = .returned (c_str (truncate_at_newline (version_response p cfg tr buffer_size).body)
            != c_str cfg.VERSION)
      ∧ ((oth2a_new_sw_available p cfg tr version_buffer buffer_size).outcome = .returned true ↔
          c_str (oth2a_new_sw_available p cfg tr version_buffer buffer_size).buffer
            ≠ c_str cfg.VERSION)
      ∧ ((∀ x ∈ truncate_at_newline (version_response p cfg tr buffer_size).body, x ≠ 0) →
          (∀ x ∈ cfg.VERSION, x ≠ 0) →
          (truncate_at_newline (version_response p cfg tr buffer_size).body ≠ cfg.VERSION →
              (oth2a_new_sw_available p cfg tr version_buffer buffer_size).outcome
                = .returned true)
            ∧ (truncate_at_newline (version_response p cfg tr buffer_size).body = cfg.VERSION →
              (oth2a_new_sw_available p cfg tr version_buffer buffer_size).outcome
                = .returned false)) := by
  obtain ⟨rest, hb, ho, -⟩ := oth2a_new_sw_available_success p cfg tr version_buffer
    buffer_size hbase hbuf hok hstatus hsize
  rw [ho, hb]
  simp only [strcmp_ne, c_str_append_nul]
  refine ⟨trivial, by simp, ?_⟩
  intro hn hv
  rw [c_str_of_no_nul _ hn, c_str_of_no_nul _ hv]
  constructor
  · intro hne
    simp [hne]
  · intro heq
    simp [heq]

theorem new_sw_available_iff_version_differs_witness :
    (oth2a_new_sw_available (example_platform [] true writes_ok 0 0) example_config []
        (List.replicate 12 0) 12).outcome = .returned true
      ∧ (oth2a_new_sw_available (example_platform [] true writes_ok 0 0) example_config_latest
        [] (List.replicate 12 0) 12).outcome = .returned false :=
  ⟨((new_sw_available_iff_version_differs (example_platform [] true writes_ok 0 0)
      example_config [] (List.replicate 12 0) 12 (by decide) (by decide) (by decide)
      (by decide) (by decide)).2.2 (by decide) (by decide)).1 (by decide),
    ((new_sw_available_iff_version_differs (example_platform [] true writes_ok 0 0)
      example_config_latest [] (List.replicate 12 0) 12 (by decide) (by decide) (by decide)
      (by decide) (by decide)).2.2 (by decide) (by decide)).2 (by decide)⟩

/-! ## Failure paths of an attempt -/

/-- C13: if the commit step fails, that is `esp_ota_set_boot_partition` is
called in the run and returns an error (which happens only after the download
and `esp_ota_end` succeeded with `update_info.error` false),
`update_firmware` makes no `esp_restart` call, calls `xSemaphoreGive` once, as
its last call right after the failed commit, leaves the semaphore available
and returns false. -/
theorem failed_commit_aborts (p : Platform) (cfg : Config) (u : update_info_t)
    (tr : List Event) (new_version : List Nat) (part : esp_partition_t) (r : esp_err_t)
    (hcommit : Event.esp_ota_set_boot_partition part r
      ∈ events_since tr (update_firmware p cfg u tr new_version).trace)
    (hfail : r ≠ ESP_OK) :
    (update_firmware p cfg u tr new_version).outcome = .returned false
      ∧ (events_since tr (update_firmware p cfg u tr new_version).trace).countP
          is_esp_restart = 0
      ∧ (events_since tr (update_firmware p cfg u tr new_version).trace).countP
          is_xSemaphoreGive = 1
      ∧ (∃ before, events_since tr (update_firmware p cfg u tr new_version).trace
          = before ++ [Event.esp_ota_set_boot_partition part r, Event.xSemaphoreGive])
      ∧ (update_firmware p cfg u tr new_version).info.semaphore = some true
      ∧ (update_firmware p cfg u tr new_version).info.error = false := by
  have hg1 : ∀ h c r, is_esp_restart (Event.esp_ota_write h c r) = false := fun _ _ _ => rfl
  have hg2 : ∀ h c r, is_xSemaphoreGive (Event.esp_ota_write h c r) = false := fun _ _ _ => rfl
  rcases update_firmware_paths p cfg u tr new_version _ rfl with
    ⟨-, -, ht, -⟩ | ⟨-, -, ht, -⟩ | ⟨-, c, rn, hp⟩
  · have : events_since tr (update_firmware p cfg u tr new_version).trace = [] := by
      rw [ht]; simpa using events_since_append tr []
    rw [this] at hcommit; simp at hcommit
  · rw [ht, events_since_append] at hcommit; simp at hcommit
  · rcases hp with ⟨-, ht, -⟩ | ⟨-, ht, -⟩ | ⟨-, ht⟩ | ⟨part', err, -, -, ht, -⟩
      | ⟨part', url, h, wl, ok, e, hw, -, hd⟩
    · rw [ht, events_since_append] at hcommit; simp at hcommit
    · rw [ht, events_since_append] at hcommit; simp at hcommit
    · rw [ht, events_since_append] at hcommit; simp at hcommit
    · rw [ht, events_since_append] at hcommit; simp at hcommit
    · have hc1 := countP_of_all_writes wl h is_esp_restart hg1 hw
      have hc2 := countP_of_all_writes wl h is_xSemaphoreGive hg2 hw
      have hn : ∀ part res, Event.esp_ota_set_boot_partition part res ∉ wl :=
        fun part res => mem_of_all_writes wl h _ rfl hw
      rcases hd with ⟨-, -, ht, -⟩ | ⟨-, -, -, -, ht, -⟩ | ⟨err, -, -, -, hf, ho, ht, hi⟩
        | ⟨-, -, -, -, ht, -⟩
      · rw [ht, events_since_append] at hcommit; simp [hn] at hcommit
      · rw [ht, events_since_append] at hcommit; simp [hn] at hcommit
      · rw [ht, events_since_append] at hcommit ⊢
        simp [hn] at hcommit
        obtain ⟨rfl, rfl⟩ := hcommit
        refine ⟨ho, by simp [is_esp_restart, hc1], by simp [is_xSemaphoreGive, hc2],
          ⟨[Event.xSemaphoreTake true, Event.esp_ota_get_boot_partition c,
            Event.esp_ota_get_running_partition rn,
            Event.esp_ota_get_next_update_partition (some part),
            Event.esp_ota_begin part ESP_OK, Event.h2client_do_request url] ++ wl
            ++ [Event.h2client_do_request_returned ok, Event.esp_ota_end h e], by simp⟩,
          hi, hf⟩
      · rw [ht, events_since_append] at hcommit
        simp [hn] at hcommit
        exact absurd hcommit.2 hfail

theorem failed_commit_aborts_witness :
    Event.esp_ota_set_boot_partition ota_1 ESP_FAIL
        ∈ events_since [] (update_firmware
          (example_platform three_chunks true writes_ok 0 ESP_FAIL) example_config
          idle_info [] version_2_0_1).trace
      ∧ ESP_FAIL ≠ ESP_OK
      ∧ (update_firmware (example_platform three_chunks true writes_ok 0 ESP_FAIL)
          example_config idle_info [] version_2_0_1).outcome = .returned false
      ∧ (events_since [] (update_firmware
          (example_platform three_chunks true writes_ok 0 ESP_FAIL) example_config
          idle_info [] version_2_0_1).trace).countP is_esp_restart = 0 :=
  have h := failed_commit_aborts (example_platform three_chunks true writes_ok 0 ESP_FAIL)
    example_config idle_info [] version_2_0_1 ota_1 ESP_FAIL (by decide) (by decide)
  ⟨by decide, by decide, h.1, h.2.1⟩

/-! ## The failure flag -/

theorem deliver_append (p : Platform) (u : update_info_t) (tr : List Event)
    (cs1 cs2 : List Chunk) :
    deliver p u tr (cs1 ++ cs2) = deliver p (deliver p u tr cs1).1 (deliver p u tr cs1).2 cs2 := by
  induction cs1 generalizing u tr with
  | nil => rfl
  | cons c cs ih =>
    rw [List.cons_append, deliver, deliver]
    exact ih _ _

/-- C17: the failure flag is sticky.  If `update_info.error` is true before a
`write_to_flash` call it is true after it, whatever the chunk and whatever
`esp_ota_write` would return; and over any sequence of chunks, once the flag is
true after some of them it is true after any further ones. -/
theorem failure_flag_sticky (p : Platform) (u : update_info_t) (tr : List Event) :
    (∀ c, u.error = true → (write_to_flash p u tr c).1.error = true)
      ∧ (∀ cs1 cs2, (deliver p u tr cs1).1.error = true →
          (deliver p u tr (cs1 ++ cs2)).1.error = true) := by
  constructor
  · intro c h
    rw [write_to_flash_error p u tr c h]
    exact h
  · intro cs1 cs2 h
    rw [deliver_append, deliver_error p _ _ cs2 h]
    exact h

theorem failure_flag_sticky_witness :
    (deliver (example_platform three_chunks true first_write_fails 0 0) session_start []
        [⟨[1, 2, 3, 4], 4⟩]).1.error = true
      ∧ (deliver (example_platform three_chunks true first_write_fails 0 0) session_start []
        ([⟨[1, 2, 3, 4], 4⟩] ++ [⟨[5, 6, 7], 3⟩, ⟨[8, 9], 2⟩])).1.error = true :=
  ⟨by decide,
    (failure_flag_sticky (example_platform three_chunks true first_write_fails 0 0)
      session_start []).2 [⟨[1, 2, 3, 4], 4⟩] [⟨[5, 6, 7], 3⟩, ⟨[8, 9], 2⟩] (by decide)⟩

/-! ## The version check: failures and capacity -/

theorem oth2a_new_sw_available_no_base_url (p : Platform) (cfg : Config) (tr : List Event)
    (version_buffer : List Nat) (buffer_size : Nat)
    (hbase : strlen cfg.CONFIG_OTH2A_BASE_URL = 0) :
    oth2a_new_sw_available p cfg tr version_buffer buffer_size
      = ⟨.returned false, version_buffer, tr⟩ := by
  unfold oth2a_new_sw_available
  simp [hbase]

/-- The version check when the request fails or its status is not 200: nothing
but the request happens, and the function returns false. -/
theorem oth2a_new_sw_available_request_failed (p : Platform) (cfg : Config) (tr : List Event)
    (version_buffer : List Nat) (buffer_size : Nat)
    (hbase : strlen cfg.CONFIG_OTH2A_BASE_URL ≠ 0)
    (hfit : (version_response p cfg tr buffer_size).body.length ≤ version_buffer.length)
    (hfail : (version_response p cfg tr buffer_size).ok = false
      ∨ (version_response p cfg tr buffer_size).status ≠ 200) :
    oth2a_new_sw_available p cfg tr version_buffer buffer_size
      = ⟨.returned false,
          (version_response p cfg tr buffer_size).body
            ++ version_buffer.drop (version_response p cfg tr buffer_size).body.length,
          tr ++ [Event.h2client_do_request (version_url p cfg),
            Event.h2client_do_request_returned (version_response p cfg tr buffer_size).ok]⟩ := by
  unfold version_response version_url at *
  unfold oth2a_new_sw_available
  simp only [hbase, if_false]
  generalize p.h2client_do_request_buffer tr _ _ = resp at *
  obtain ⟨ok, status, body⟩ := resp
  simp only [] at hfit hfail
  simp only [store_body, hfit, if_true]
  rcases hfail with h | h
  · simp [h]
  · simp [h]

/-- The version check on a successful request with status 200 whose body leaves
room for the terminator: the only byte the function writes is the NUL at the
index of the first newline, or right after the body. -/
theorem oth2a_new_sw_available_exact (p : Platform) (cfg : Config) (tr : List Event)
    (version_buffer : List Nat) (buffer_size : Nat)
    (hbase : strlen cfg.CONFIG_OTH2A_BASE_URL ≠ 0)
    (hok : (version_response p cfg tr buffer_size).ok = true)
    (hstatus : (version_response p cfg tr buffer_size).status = 200)
    (hsize : (version_response p cfg tr buffer_size).body.length < version_buffer.length) :
    (oth2a_new_sw_available p cfg tr version_buffer buffer_size).buffer
        = ((version_response p cfg tr buffer_size).body
            ++ version_buffer.drop (version_response p cfg tr buffer_size).body.length).set
          (truncate_at_newline (version_response p cfg tr buffer_size).body).length 0
      ∧ (oth2a_new_sw_available p cfg tr version_buffer buffer_size).trace
        = tr ++ [Event.h2client_do_request (version_url p cfg),
            Event.h2client_do_request_returned true] := by
  unfold version_response version_url at *
  unfold oth2a_new_sw_available
  simp only [hbase, if_false]
  generalize p.h2client_do_request_buffer tr _ _ = resp at *
  obtain ⟨ok, status, body⟩ := resp
  simp only [] at hok hstatus hsize
  subst hok hstatus
  have hle : body.length ≤ version_buffer.length := by omega
  simp only [store_body, hle, if_true]
  have hspec := newline_loop_spec body.length body.length 0 []
    (body ++ version_buffer.drop body.length) rfl (by omega) (by simp)
  simp only [List.nil_append, Nat.sub_zero, List.take_left'] at hspec
  have htl := truncate_at_newline_length_le body
  rw [hspec]
  by_cases hnl : (truncate_at_newline body).length < body.length
  · simp [hnl]
  · have heq : (truncate_at_newline body).length = body.length := by omega
    simp [hnl, heq, hsize, hle]

theorem oth2a_handle_no_update (p : Platform) (cfg : Config) (g : Globals) (tr : List Event)
    (h : (oth2a_new_sw_available p cfg tr g.latest_version VERSION_MAX_STRLEN).outcome
      = .returned false) :
    oth2a_handle p cfg g tr
      = ⟨.returned false,
          ⟨g.update_info,
            (oth2a_new_sw_available p cfg tr g.latest_version VERSION_MAX_STRLEN).buffer⟩,
          (oth2a_new_sw_available p cfg tr g.latest_version VERSION_MAX_STRLEN).trace⟩ := by
  unfold oth2a_handle
  simp only []
  rw [h]

/-- C11: update checks degrade to "no update".  When the base url is empty, or
the version request fails, or its status is not 200, whatever body the
transport stored in the buffer, `oth2a_new_sw_available` returns false; with an
empty base url it makes no call at all.  `oth2a_handle` then returns false, its
only calls are those of the version request, and `update_info` is unchanged: no
update attempt is started. -/
theorem update_check_degrades (p : Platform) (cfg : Config) (tr : List Event)
    (version_buffer : List Nat) (buffer_size : Nat)
    (h : strlen cfg.CONFIG_OTH2A_BASE_URL = 0
      ∨ (((version_response p cfg tr buffer_size).ok = false
          ∨ (version_response p cfg tr buffer_size).status ≠ 200)
        ∧ (version_response p cfg tr buffer_size).body.length ≤ version_buffer.length)) :
    (oth2a_new_sw_available p cfg tr version_buffer buffer_size).outcome = .returned false
      ∧ (strlen cfg.CONFIG_OTH2A_BASE_URL = 0 →
          (oth2a_new_sw_available p cfg tr version_buffer buffer_size).trace = tr
            ∧ (oth2a_new_sw_available p cfg tr version_buffer buffer_size).buffer
              = version_buffer)
      ∧ (∀ e ∈ events_since tr
            (oth2a_new_sw_available p cfg tr version_buffer buffer_size).trace,
          e = Event.h2client_do_request (version_url p cfg)
            ∨ e = Event.h2client_do_request_returned
              (version_response p cfg tr buffer_size).ok)
      ∧ (∀ g : Globals, g.latest_version = version_buffer → buffer_size = VERSION_MAX_STRLEN →
          (oth2a_handle p cfg g tr).outcome = .returned false
            ∧ (oth2a_handle p cfg g tr).globals.update_info = g.update_info
            ∧ (oth2a_handle p cfg g tr).trace
              = (oth2a_new_sw_available p cfg tr version_buffer buffer_size).trace) := by
  have key : (oth2a_new_sw_available p cfg tr version_buffer buffer_size).outcome
        = .returned false
      ∧ (strlen cfg.CONFIG_OTH2A_BASE_URL = 0 →
          (oth2a_new_sw_available p cfg tr version_buffer buffer_size).trace = tr
            ∧ (oth2a_new_sw_available p cfg tr version_buffer buffer_size).buffer
              = version_buffer)
      ∧ (∀ e ∈ events_since tr
            (oth2a_new_sw_available p cfg tr version_buffer buffer_size).trace,
          e = Event.h2client_do_request (version_url p cfg)
            ∨ e = Event.h2client_do_request_returned
              (version_response p cfg tr buffer_size).ok) := by
    by_cases hbase : strlen cfg.CONFIG_OTH2A_BASE_URL = 0
    · rw [oth2a_new_sw_available_no_base_url p cfg tr version_buffer buffer_size hbase]
      refine ⟨rfl, fun _ => ⟨rfl, rfl⟩, ?_⟩
      intro e he
      have : events_since tr tr = [] := by simpa using events_since_append tr []
      simp only [this] at he
      cases he
    · rcases h with h | ⟨hfail, hfit⟩
      · exact absurd h hbase
      · rw [oth2a_new_sw_available_request_failed p cfg tr version_buffer buffer_size hbase
          hfit hfail]
        refine ⟨rfl, fun h0 => absurd h0 hbase, ?_⟩
        intro e he
        simp only [events_since_append] at he
        simpa using he
  refine ⟨key.1, key.2.1, key.2.2, ?_⟩
  intro g hg hb
  subst hg hb
  rw [oth2a_handle_no_update p cfg g tr key.1]
  exact ⟨rfl, rfl, rfl⟩

theorem update_check_degrades_witness :
    strlen config_no_base_url.CONFIG_OTH2A_BASE_URL = 0
      ∧ (oth2a_new_sw_available (example_platform three_chunks true writes_ok 0 0)
          config_no_base_url [] idle_globals.latest_version VERSION_MAX_STRLEN).outcome
        = .returned false
      ∧ (oth2a_handle (example_platform three_chunks true writes_ok 0 0)
          config_no_base_url idle_globals []).outcome = .returned false
      ∧ (oth2a_handle (example_platform three_chunks true writes_ok 0 0)
          config_no_base_url idle_globals []).trace = []
      ∧ (version_response (version_platform true 404 long_version) example_config []
          VERSION_MAX_STRLEN).status ≠ 200
      ∧ (oth2a_handle (version_platform true 404 long_version) example_config
          idle_globals []).outcome = .returned false :=
  have h := update_check_degrades (example_platform three_chunks true writes_ok 0 0)
    config_no_base_url [] idle_globals.latest_version VERSION_MAX_STRLEN (Or.inl (by decide))
  have h' := update_check_degrades (version_platform true 404 long_version) example_config []
    idle_globals.latest_version VERSION_MAX_STRLEN
    (Or.inr ⟨Or.inr (by decide), by decide⟩)
  ⟨by decide, h.1, (h.2.2.2 idle_globals rfl rfl).1,
    ((h.2.2.2 idle_globals rfl rfl).2.2).trans (h.2.1 (by decide)).1, by decide,
    (h'.2.2.2 idle_globals rfl rfl).1⟩

theorem c_str_length_le (l : List Nat) : (c_str l).length ≤ l.length :=
  (List.takeWhile_sublist _).length_le

theorem c_str_terminator (l : List Nat) (h : 0 ∈ l) : l[(c_str l).length]? = some 0 := by
  induction l with
  | nil => cases h
  | cons x xs ih =>
    by_cases hx : x = 0
    · simp [c_str, hx]
    · have hxs : 0 ∈ xs := by
        rcases List.mem_cons.1 h with h0 | h0
        · exact absurd h0.symm hx
        · exact h0
      have := ih hxs
      simp only [c_str] at this ⊢
      simp [hx, this]

theorem stored_beyond (body version_buffer : List Nat) (i : Nat) (h : body.length ≤ i) :
    (body ++ version_buffer.drop body.length)[i]? = version_buffer[i]? := by
  rw [List.getElem?_append_right h, List.getElem?_drop]
  congr 1
  omega

/-- C12: the candidate version is capacity-bounded.  For `1 ≤ buffer_size` (a
`size_t`), a caller's array of at least `buffer_size` bytes and a non-empty base
url, `oth2a_new_sw_available` asks the transport for at most `buffer_size - 1`
body bytes.  For every response of at most that many bytes the function
returns (it makes no access outside the array); the only byte it writes is a
NUL at one index `k < buffer_size`; no byte at an index `≥ buffer_size` is
changed; and after a successful request with status 200 the buffer holds a
NUL-terminated string of length at most `buffer_size - 1`, that is at most 11
for `buffer_size = VERSION_MAX_STRLEN`. -/
theorem version_capacity_bounded (p : Platform) (cfg : Config) (tr : List Event)
    (version_buffer : List Nat) (buffer_size : Nat)
    (h1 : 1 ≤ buffer_size) (h32 : buffer_size < 2 ^ 32)
    (hbuf : buffer_size ≤ version_buffer.length)
    (hbase : strlen cfg.CONFIG_OTH2A_BASE_URL ≠ 0)
    (hsize : (version_response p cfg tr buffer_size).body.length ≤ buffer_size - 1) :
    version_response p cfg tr buffer_size
        = p.h2client_do_request_buffer tr (version_url p cfg) (buffer_size - 1)
      ∧ (∃ b, (oth2a_new_sw_available p cfg tr version_buffer buffer_size).outcome
          = .returned b)
      ∧ (∃ k, k < buffer_size
          ∧ ((oth2a_new_sw_available p cfg tr version_buffer buffer_size).buffer
              = (version_response p cfg tr buffer_size).body
                ++ version_buffer.drop (version_response p cfg tr buffer_size).body.length
            ∨ (oth2a_new_sw_available p cfg tr version_buffer buffer_size).buffer
              = ((version_response p cfg tr buffer_size).body
                ++ version_buffer.drop
                  (version_response p cfg tr buffer_size).body.length).set k 0))
      ∧ (∀ i, buffer_size ≤ i →
          (oth2a_new_sw_available p cfg tr version_buffer buffer_size).buffer[i]?
            = version_buffer[i]?)
      ∧ ((version_response p cfg tr buffer_size).ok = true →
          (version_response p cfg tr buffer_size).status = 200 →
          strlen (oth2a_new_sw_available p cfg tr version_buffer buffer_size).buffer
              ≤ buffer_size - 1
            ∧ (oth2a_new_sw_available p cfg tr version_buffer buffer_size).buffer[
                strlen (oth2a_new_sw_available p cfg tr version_buffer buffer_size).buffer]?
              = some 0
            ∧ (buffer_size = VERSION_MAX_STRLEN →
              strlen (oth2a_new_sw_available p cfg tr version_buffer buffer_size).buffer
                ≤ 11)) := by
  have hlimit : (buffer_size + 2 ^ 32 - 1) % 2 ^ 32 = buffer_size - 1 := by omega
  have htl := truncate_at_newline_length_le (version_response p cfg tr buffer_size).body
  have hlt : (version_response p cfg tr buffer_size).body.length < version_buffer.length := by
    omega
  refine ⟨by simp only [version_response, hlimit], ?_⟩
  by_cases hsucc : (version_response p cfg tr buffer_size).ok = true
      ∧ (version_response p cfg tr buffer_size).status = 200
  · obtain ⟨hok, hstatus⟩ := hsucc
    obtain ⟨rest, hb, ho, -⟩ := oth2a_new_sw_available_success p cfg tr version_buffer
      buffer_size hbase hbuf hok hstatus (by omega)
    have hex := (oth2a_new_sw_available_exact p cfg tr version_buffer buffer_size hbase hok
      hstatus hlt).1
    refine ⟨⟨_, ho⟩,
      ⟨(truncate_at_newline (version_response p cfg tr buffer_size).body).length, by omega,
        Or.inr hex⟩, ?_, ?_⟩
    · intro i hi
      rw [hex, List.getElem?_set_ne (by omega), stored_beyond _ _ _ (by omega)]
    · intro _ _
      have hlen : strlen (oth2a_new_sw_available p cfg tr version_buffer buffer_size).buffer
          ≤ buffer_size - 1 := by
        rw [hb]
        unfold strlen
        rw [c_str_append_nul]
        have := c_str_length_le
          (truncate_at_newline (version_response p cfg tr buffer_size).body)
        omega
      refine ⟨hlen, ?_, ?_⟩
      · unfold strlen
        apply c_str_terminator
        rw [hb]
        simp
      · intro h12
        have h11 : buffer_size - 1 = 11 := by rw [h12]; rfl
        omega
  · have hfail : (version_response p cfg tr buffer_size).ok = false
        ∨ (version_response p cfg tr buffer_size).status ≠ 200 := by
      by_cases hok : (version_response p cfg tr buffer_size).ok = true
      · exact Or.inr (fun hst => hsucc ⟨hok, hst⟩)
      · exact Or.inl (by simpa using hok)
    have hrun := oth2a_new_sw_available_request_failed p cfg tr version_buffer buffer_size
      hbase (by omega) hfail
    refine ⟨⟨false, by rw [hrun]⟩, ⟨0, by omega, Or.inl (by rw [hrun])⟩, ?_, ?_⟩
    · intro i hi
      rw [hrun]
      exact stored_beyond _ _ _ (by omega)
    · intro hok hstatus
      exact absurd ⟨hok, hstatus⟩ hsucc

theorem version_capacity_bounded_witness :
    (version_response (version_platform true 200 long_version) example_config [] 12).body
        = long_version.take 11
      ∧ (oth2a_new_sw_available (version_platform true 200 long_version) example_config []
          (List.replicate 12 0) 12).outcome = .returned true
      ∧ c_str (oth2a_new_sw_available (version_platform true 200 long_version) example_config
          [] (List.replicate 12 0) 12).buffer = long_version.take 11
      ∧ strlen (oth2a_new_sw_available (version_platform true 200 long_version) example_config
          [] (List.replicate 12 0) 12).buffer ≤ 11 :=
  have h := version_capacity_bounded (version_platform true 200 long_version) example_config
    [] (List.replicate 12 0) 12 (by decide) (by decide) (by decide) (by decide) (by decide)
  ⟨by decide, by decide, by decide, (h.2.2.2.2 (by decide) (by decide)).2.2 rfl⟩

/-! ## The attempt up to the opening of the flash session -/

/-- How `update_firmware` proceeds once the lock is taken, with the results of
the partition queries `c` (boot) and `rn` (running): abort before any partition
use; undefined behaviour on a NULL running or next update partition; abort on a
failed `esp_ota_begin`; or the download phase, entered with the failure flag
false and the byte counter 0. -/
theorem update_firmware_cases (p : Platform) (cfg : Config) (u : update_info_t)
    (tr : List Event) (new_version : List Nat) (hsem : u.semaphore = some true)
    (R : Run Bool) (hR : R = update_firmware p cfg u tr new_version) :
    ∃ c rn,
      ((c = none
          ∨ (p.sprintf (oth2a_bin_file_template cfg) [c_str new_version]).1 < 0
          ∨ (p.sprintf fmt_s_slash_s [c_str cfg.CONFIG_OTH2A_BASE_URL,
              (p.sprintf (oth2a_bin_file_template cfg) [c_str new_version]).2]).1 < 0)
        ∧ R = update_firmware_error ⟨some false, u.handle, u.error, u.binary_file_size⟩
            (tr ++ [Event.xSemaphoreTake true, Event.esp_ota_get_boot_partition c,
              Event.esp_ota_get_running_partition rn]))
      ∨ (c ≠ none ∧ rn = none
        ∧ R = ⟨.undefined_behaviour, ⟨some false, u.handle, u.error, u.binary_file_size⟩,
            tr ++ [Event.xSemaphoreTake true, Event.esp_ota_get_boot_partition c,
              Event.esp_ota_get_running_partition rn]⟩)
      ∨ (c ≠ none ∧ rn ≠ none
        ∧ R = ⟨.undefined_behaviour, ⟨some false, u.handle, u.error, u.binary_file_size⟩,
            tr ++ [Event.xSemaphoreTake true, Event.esp_ota_get_boot_partition c,
              Event.esp_ota_get_running_partition rn,
              Event.esp_ota_get_next_update_partition none]⟩)
      ∨ (c ≠ none ∧ rn ≠ none ∧ ∃ part err h, err ≠ ESP_OK
        ∧ R = update_firmware_error ⟨some false, h, u.error, u.binary_file_size⟩
            (tr ++ [Event.xSemaphoreTake true, Event.esp_ota_get_boot_partition c,
              Event.esp_ota_get_running_partition rn,
              Event.esp_ota_get_next_update_partition (some part),
              Event.esp_ota_begin part err]))
      ∨ (c ≠ none ∧ rn ≠ none ∧ ∃ part h url,
          R = update_firmware_download p ⟨some false, h, false, 0⟩
            (tr ++ [Event.xSemaphoreTake true, Event.esp_ota_get_boot_partition c,
              Event.esp_ota_get_running_partition rn,
              Event.esp_ota_get_next_update_partition (some part),
              Event.esp_ota_begin part ESP_OK]) part url) := by
  unfold update_firmware at hR
  rw [hsem] at hR
  refine ⟨p.esp_ota_get_boot_partition (tr ++ [Event.xSemaphoreTake true]),
    p.esp_ota_get_running_partition (tr ++ [Event.xSemaphoreTake true]
      ++ [Event.esp_ota_get_boot_partition
        (p.esp_ota_get_boot_partition (tr ++ [Event.xSemaphoreTake true]))]), ?_⟩
  simp only [xSemaphoreTake, Bool.not_true, Bool.false_eq_true, if_false] at hR
  generalize p.esp_ota_get_boot_partition (tr ++ [Event.xSemaphoreTake true]) = c at *
  generalize p.esp_ota_get_running_partition (tr ++ [Event.xSemaphoreTake true]
      ++ [Event.esp_ota_get_boot_partition c]) = rn at *
  generalize p.sprintf (oth2a_bin_file_template cfg) [c_str new_version] = f at *
  generalize p.sprintf fmt_s_slash_s [c_str cfg.CONFIG_OTH2A_BASE_URL, f.2] = furl at *
  by_cases hf : f.1 < 0
  · left
    refine ⟨Or.inr (Or.inl hf), ?_⟩
    simp [hR, hf]
  · by_cases hfu : furl.1 < 0
    · left
      refine ⟨Or.inr (Or.inr hfu), ?_⟩
      simp [hR, hf, hfu]
    · cases c with
      | none =>
        left
        refine ⟨Or.inl rfl, ?_⟩
        simp [hR, hf, hfu]
      | some cp =>
        right
        cases rn with
        | none =>
          left
          refine ⟨by simp, rfl, ?_⟩
          simp [hR, hf, hfu]
        | some rp =>
          right
          simp only [hf, hfu, if_false] at hR
          generalize p.esp_ota_get_next_update_partition
            (tr ++ [Event.xSemaphoreTake true] ++ [Event.esp_ota_get_boot_partition (some cp)]
              ++ [Event.esp_ota_get_running_partition (some rp)]) = nx at *
          cases nx with
          | none =>
            left
            refine ⟨by simp, by simp, ?_⟩
            simp [hR]
          | some part =>
            right
            simp only [] at hR
            generalize p.esp_ota_begin
              (tr ++ [Event.xSemaphoreTake true]
                ++ [Event.esp_ota_get_boot_partition (some cp)]
                ++ [Event.esp_ota_get_running_partition (some rp)]
                ++ [Event.esp_ota_get_next_update_partition (some part)]) part u.handle
              = b at *
            by_cases hb : b.1 = ESP_OK
            · right
              refine ⟨by simp, by simp, part, b.2, furl.2, ?_⟩
              simp only [hb, ne_eq, not_true_eq_false, if_false] at hR
              rw [hR]
              simp only [List.append_assoc, List.singleton_append, List.cons_append,
                List.nil_append]
            · left
              refine ⟨by simp, by simp, part, b.1, b.2, hb, ?_⟩
              simp [hR, hb]

/-- C15: on a device that is not OTA-capable, that is when the
`esp_ota_get_boot_partition` call of the run returns NULL, `update_firmware`
makes no `h2client_do_request` call, no `esp_ota_begin` call, no
`esp_ota_set_boot_partition` call and no `esp_restart` call; after the two
partition queries of lines 122-123 its only call is `xSemaphoreGive`, the
semaphore is available again, and it returns false. -/
theorem not_ota_capable_aborts (p : Platform) (cfg : Config) (u : update_info_t)
    (tr : List Event) (new_version : List Nat)
    (hboot : Event.esp_ota_get_boot_partition none
      ∈ events_since tr (update_firmware p cfg u tr new_version).trace) :
    (update_firmware p cfg u tr new_version).outcome = .returned false
      ∧ (∃ rn, events_since tr (update_firmware p cfg u tr new_version).trace
          = [Event.xSemaphoreTake true, Event.esp_ota_get_boot_partition none,
              Event.esp_ota_get_running_partition rn, Event.xSemaphoreGive])
      ∧ (events_since tr (update_firmware p cfg u tr new_version).trace).countP
          is_h2client_do_request = 0
      ∧ (events_since tr (update_firmware p cfg u tr new_version).trace).countP
          is_esp_ota_begin = 0
      ∧ (events_since tr (update_firmware p cfg u tr new_version).trace).countP
          is_esp_ota_set_boot_partition = 0
      ∧ (events_since tr (update_firmware p cfg u tr new_version).trace).countP
          is_esp_restart = 0
      ∧ (events_since tr (update_firmware p cfg u tr new_version).trace).countP
          is_xSemaphoreGive = 1
      ∧ (update_firmware p cfg u tr new_version).info.semaphore = some true := by
  rcases update_firmware_paths p cfg u tr new_version _ rfl with
    ⟨-, -, ht, -⟩ | ⟨-, -, ht, -⟩ | ⟨hsem, -⟩
  · have : events_since tr (update_firmware p cfg u tr new_version).trace = [] := by
      rw [ht]; simpa using events_since_append tr []
    rw [this] at hboot; simp at hboot
  · rw [ht, events_since_append] at hboot; simp at hboot
  · obtain ⟨c, rn, hc⟩ := update_firmware_cases p cfg u tr new_version hsem _ rfl
    rcases hc with ⟨-, hR⟩ | ⟨hne, -, hR⟩ | ⟨hne, -, hR⟩ | ⟨hne, -, part, err, h, -, hR⟩
      | ⟨hne, -, part, h, url, hR⟩
    · rw [hR] at hboot ⊢
      simp only [update_firmware_error, List.append_assoc, List.cons_append, List.nil_append,
        events_since_append] at hboot ⊢
      simp at hboot
      subst hboot
      simp [is_h2client_do_request, is_esp_ota_begin, is_esp_ota_set_boot_partition,
        is_esp_restart, is_xSemaphoreGive, xSemaphoreGive]
    · rw [hR] at hboot
      simp only [events_since_append] at hboot
      simp at hboot
      exact absurd hboot.symm hne
    · rw [hR] at hboot
      simp only [events_since_append] at hboot
      simp at hboot
      exact absurd hboot.symm hne
    · rw [hR] at hboot
      simp only [update_firmware_error, List.append_assoc, List.cons_append, List.nil_append,
        events_since_append] at hboot
      simp at hboot
      exact absurd hboot.symm hne
    · obtain ⟨wl, ok, e, hw, -, hd⟩ := update_firmware_download_paths p
        ⟨some false, h, false, 0⟩ _ part url rfl rfl _ hR
      have hn : Event.esp_ota_get_boot_partition none ∉ wl :=
        mem_of_all_writes wl _ _ rfl hw
      rcases hd with ⟨-, -, ht, -⟩ | ⟨-, -, -, -, ht, -⟩ | ⟨err, -, -, -, -, -, ht, -⟩
        | ⟨-, -, -, -, ht, -⟩
      all_goals
        rw [ht] at hboot
        simp only [List.append_assoc, List.cons_append, List.nil_append,
          events_since_append] at hboot
        simp [hn] at hboot
        exact absurd hboot.symm hne

theorem not_ota_capable_aborts_witness :
    Event.esp_ota_get_boot_partition none
        ∈ events_since [] (update_firmware platform_not_ota example_config idle_info []
          version_2_0_1).trace
      ∧ (update_firmware platform_not_ota example_config idle_info []
          version_2_0_1).outcome = .returned false
      ∧ (events_since [] (update_firmware platform_not_ota example_config idle_info []
          version_2_0_1).trace).countP is_h2client_do_request = 0
      ∧ (update_firmware platform_not_ota example_config idle_info []
          version_2_0_1).info.semaphore = some true :=
  have h := not_ota_capable_aborts platform_not_ota example_config idle_info []
    version_2_0_1 (by decide)
  ⟨by decide, h.1, h.2.2.1, h.2.2.2.2.2.2.2⟩

/-- C16, the code at the failing input: the lock is free, the boot and running
partitions exist and `esp_ota_get_next_update_partition` returns NULL.  The
run ends in the NULL dereference of lines 151-152, right after that query: it
does not return false, and `xSemaphoreGive` is not called, so the semaphore
stays taken. -/
theorem null_update_partition_dereferenced :
    (update_firmware platform_no_next example_config idle_info []
        version_2_0_1).outcome = .undefined_behaviour
      ∧ events_since [] (update_firmware platform_no_next example_config idle_info []
          version_2_0_1).trace
        = [Event.xSemaphoreTake true, Event.esp_ota_get_boot_partition (some ota_0),
            Event.esp_ota_get_running_partition (some ota_0),
            Event.esp_ota_get_next_update_partition none]
      ∧ (update_firmware platform_no_next example_config idle_info []
          version_2_0_1).info.semaphore = some false
      ∧ (oth2a_handle platform_no_next example_config idle_globals []).outcome
        = .undefined_behaviour := by
  decide

theorem flash_writes_append (a b : List Event) :
    flash_writes (a ++ b) = flash_writes a ++ flash_writes b := by
  simp [flash_writes, List.filterMap_append]

/-- The chunks that reach the flash during the download phase. -/
theorem update_firmware_download_flash_writes (p : Platform) (u : update_info_t)
    (tr : List Event) (part : esp_partition_t) (url : List Nat) (hu : u.error = false) :
    flash_writes (update_firmware_download p u tr part url).trace
      = flash_writes tr ++ chunks_through_first_failure p u.handle
          (tr ++ [Event.h2client_do_request url])
          (p.h2client_do_request_callback tr url).chunks := by
  have hd := deliver_trace p u (tr ++ [Event.h2client_do_request url])
    (p.h2client_do_request_callback tr url).chunks hu
  have hfw := flash_writes_write_log p u.handle (tr ++ [Event.h2client_do_request url])
    (p.h2client_do_request_callback tr url).chunks
  unfold update_firmware_download update_firmware_error
  simp only []
  rw [hd, ← hfw]
  generalize write_log p u.handle (tr ++ [Event.h2client_do_request url])
    (p.h2client_do_request_callback tr url).chunks = wl
  have h1 : ∀ url, flash_writes [Event.h2client_do_request url] = [] := fun _ => rfl
  have h2 : ∀ r, flash_writes [Event.h2client_do_request_returned r] = [] := fun _ => rfl
  have h3 : ∀ h e, flash_writes [Event.esp_ota_end h e] = [] := fun _ _ => rfl
  have h4 : flash_writes [Event.xSemaphoreGive] = [] := rfl
  have h5 : ∀ q e, flash_writes [Event.esp_ota_set_boot_partition q e] = [] := fun _ _ => rfl
  have h6 : flash_writes [Event.esp_restart] = [] := rfl
  repeat' split
  all_goals simp only [flash_writes_append, h1, h2, h3, h4, h5, h6, List.append_nil]

theorem chunks_through_first_failure_head (p : Platform) (h : esp_ota_handle_t)
    (tr : List Event) (cs : List Chunk) :
    (chunks_through_first_failure p h tr cs).head? = cs.head? := by
  cases cs with
  | nil => rfl
  | cons c cs =>
    by_cases hw : p.esp_ota_write tr h c = ESP_OK
    · simp [chunks_through_first_failure, hw]
    · simp [chunks_through_first_failure, hw]

/-- C18: session bookkeeping does not leak across attempts.  Whatever
`update_info.error` and `update_info.binary_file_size` hold on entry, whenever
`esp_ota_begin` returns `ESP_OK` in a run of `update_firmware`, the rest of the
run is the download phase started with the failure flag false and the byte
counter 0.  Hence the chunks passed to `esp_ota_write` in the run are the
delivered chunks up to and including the first whose write fails in this
attempt; in particular the first delivered chunk always reaches the flash. -/
theorem session_bookkeeping_reset (p : Platform) (cfg : Config) (u : update_info_t)
    (tr : List Event) (new_version : List Nat) (part : esp_partition_t)
    (hopen : Event.esp_ota_begin part ESP_OK
      ∈ events_since tr (update_firmware p cfg u tr new_version).trace) :
    ∃ h tr' url,
      update_firmware p cfg u tr new_version
          = update_firmware_download p ⟨some false, h, false, 0⟩ tr' part url
        ∧ flash_writes (events_since tr (update_firmware p cfg u tr new_version).trace)
          = chunks_through_first_failure p h (tr' ++ [Event.h2client_do_request url])
              (p.h2client_do_request_callback tr' url).chunks
        ∧ (flash_writes (events_since tr (update_firmware p cfg u tr new_version).trace)).head?
          = (p.h2client_do_request_callback tr' url).chunks.head? := by
  rcases update_firmware_paths p cfg u tr new_version _ rfl with
    ⟨-, -, ht, -⟩ | ⟨-, -, ht, -⟩ | ⟨hsem, -⟩
  · have : events_since tr (update_firmware p cfg u tr new_version).trace = [] := by
      rw [ht]; simpa using events_since_append tr []
    rw [this] at hopen; simp at hopen
  · rw [ht, events_since_append] at hopen; simp at hopen
  · obtain ⟨c, rn, hc⟩ := update_firmware_cases p cfg u tr new_version hsem _ rfl
    rcases hc with ⟨-, hR⟩ | ⟨-, -, hR⟩ | ⟨-, -, hR⟩ | ⟨-, -, part', err, h, hne, hR⟩
      | ⟨-, -, part', h, url, hR⟩
    · rw [hR] at hopen
      simp only [update_firmware_error, List.append_assoc, List.cons_append, List.nil_append,
        events_since_append] at hopen
      simp at hopen
    · rw [hR] at hopen
      simp only [events_since_append] at hopen
      simp at hopen
    · rw [hR] at hopen
      simp only [events_since_append] at hopen
      simp at hopen
    · rw [hR] at hopen
      simp only [update_firmware_error, List.append_assoc, List.cons_append, List.nil_append,
        events_since_append] at hopen
      simp at hopen
      exact absurd hopen.2.symm hne
    · obtain ⟨wl, ok, e, hw, -, hd⟩ := update_firmware_download_paths p
        ⟨some false, h, false, 0⟩ _ part' url rfl rfl _ hR
      have hn : ∀ q r, Event.esp_ota_begin q r ∉ wl :=
        fun q r => mem_of_all_writes wl _ _ rfl hw
      have hfw := update_firmware_download_flash_writes p ⟨some false, h, false, 0⟩
        (tr ++ [Event.xSemaphoreTake true, Event.esp_ota_get_boot_partition c,
          Event.esp_ota_get_running_partition rn,
          Event.esp_ota_get_next_update_partition (some part'),
          Event.esp_ota_begin part' ESP_OK]) part' url rfl
      rw [← hR] at hfw
      have key : ∃ evs, (update_firmware p cfg u tr new_version).trace = tr ++ evs
          ∧ (Event.esp_ota_begin part ESP_OK ∈ evs → part = part') := by
        rcases hd with ⟨-, -, ht, -⟩ | ⟨-, -, -, -, ht, -⟩ | ⟨err, -, -, -, -, -, ht, -⟩
          | ⟨-, -, -, -, ht, -⟩
        all_goals
          rw [ht]
          simp only [List.append_assoc, List.cons_append, List.nil_append]
          refine ⟨_, rfl, ?_⟩
          intro hm
          simp [hn] at hm
          exact hm
      obtain ⟨evs, hevs, hpart⟩ := key
      rw [hevs, events_since_append] at hopen ⊢
      have hp := hpart hopen
      subst hp
      rw [hevs, flash_writes_append, flash_writes_append] at hfw
      have h0 : flash_writes [Event.xSemaphoreTake true, Event.esp_ota_get_boot_partition c,
          Event.esp_ota_get_running_partition rn,
          Event.esp_ota_get_next_update_partition (some part),
          Event.esp_ota_begin part ESP_OK] = [] := rfl
      rw [h0, List.append_nil] at hfw
      have hfe := List.append_cancel_left hfw
      refine ⟨h, _, url, hR.trans rfl, hfe, ?_⟩
      rw [hfe, chunks_through_first_failure_head]

theorem session_bookkeeping_reset_witness :
    info_after_failed_attempt.error = true
      ∧ Event.esp_ota_begin ota_1 ESP_OK
        ∈ events_since [] (update_firmware (example_platform three_chunks true writes_ok 0 0)
          example_config info_after_failed_attempt [] version_2_0_1).trace
      ∧ flash_writes (events_since [] (update_firmware
          (example_platform three_chunks true writes_ok 0 0) example_config
          info_after_failed_attempt [] version_2_0_1).trace) = three_chunks
      ∧ ∃ h tr' url,
        update_firmware (example_platform three_chunks true writes_ok 0 0) example_config
            info_after_failed_attempt [] version_2_0_1
          = update_firmware_download (example_platform three_chunks true writes_ok 0 0)
              ⟨some false, h, false, 0⟩ tr' ota_1 url :=
  have h := session_bookkeeping_reset (example_platform three_chunks true writes_ok 0 0)
    example_config info_after_failed_attempt [] version_2_0_1 ota_1 (by decide)
  ⟨rfl, by decide, by decide,
    h.elim fun hd h1 => h1.elim fun tr' h2 => h2.elim fun url h3 => ⟨hd, tr', url, h3.1⟩⟩

/-! ## Sizes of the path buffers -/

theorem sprintf_s_no_directive (t : List Nat) (args : List (List Nat)) (h : ∀ b ∈ t, b ≠ 37) :
    sprintf_s t args = t := by
  induction t with
  | nil => simp [sprintf_s]
  | cons x xs ih =>
    have hx : x ≠ 37 := h x (List.mem_cons_self _ _)
    have hxs := ih (fun b hb => h b (List.mem_cons_of_mem _ hb))
    rw [sprintf_s]
    · rw [hxs]
    · intro rest a args' h1
      exact absurd h1 hx

theorem sprintf_s_one_directive (pre post v : List Nat) (hpre : ∀ b ∈ pre, b ≠ 37)
    (hpost : ∀ b ∈ post, b ≠ 37) :
    sprintf_s (pre ++ 37 :: 115 :: post) [v] = pre ++ v ++ post := by
  induction pre with
  | nil =>
    simp only [List.nil_append]
    rw [sprintf_s, sprintf_s_no_directive post [] hpost]
  | cons x xs ih =>
    have hx : x ≠ 37 := hpre x (List.mem_cons_self _ _)
    have hxs := ih (fun b hb => hpre b (List.mem_cons_of_mem _ hb))
    rw [List.cons_append, sprintf_s]
    · rw [hxs]
      simp
    · intro rest a args' h1
      exact absurd h1 hx

theorem sprintf_s_slash (a b : List Nat) : sprintf_s fmt_s_slash_s [a, b] = a ++ 47 :: b := by
  simp [fmt_s_slash_s, sprintf_s]

theorem c_str_no_nul (l : List Nat) : ∀ x ∈ c_str l, x ≠ 0 := by
  intro x hx
  have := List.mem_takeWhile_imp hx
  simpa using this

theorem bin_file_name_eq (cfg : Config) (new_version : List Nat)
    (hpre : ∀ b ∈ cfg.CONFIG_OTH2A_FIRMWARE_PREAMBLE, b ≠ 37 ∧ b ≠ 0) :
    bin_file_name cfg new_version
      = cfg.CONFIG_OTH2A_FIRMWARE_PREAMBLE ++ [95] ++ c_str new_version ++ [46, 98, 105, 110] := by
  unfold bin_file_name oth2a_bin_file_template
  have h := sprintf_s_one_directive (cfg.CONFIG_OTH2A_FIRMWARE_PREAMBLE ++ [95])
    [46, 98, 105, 110] (c_str new_version)
    (by
      intro b hb
      rcases List.mem_append.1 hb with hb | hb
      · exact (hpre b hb).1
      · simp at hb; omega)
    (by intro b hb; simp at hb; omega)
  simpa using h

/-- C19: the download-path buffers are large enough.  For every base url and
version string, and a file name template with no `%` besides its `%s` (the
preamble is a C string without `%`): the file name that `sprintf` produces
needs, with its NUL, `strlen(template) - 2 + strlen(version) + 1` bytes, at most
`sizeof(bin_file)`; the url `base/file` needs exactly `sizeof(bin_url)` bytes;
and the version url `base/latest` needs exactly the
`strlen(base) + strlen("latest") + 2` bytes of the array `url`. -/
theorem path_buffers_suffice (cfg : Config) (new_version : List Nat)
    (hpre : ∀ b ∈ cfg.CONFIG_OTH2A_FIRMWARE_PREAMBLE, b ≠ 37 ∧ b ≠ 0) :
    (bin_file_name cfg new_version).length + 1
        = strlen (oth2a_bin_file_template cfg) - 2 + strlen new_version + 1
      ∧ (bin_file_name cfg new_version).length + 1 ≤ sizeof_bin_file cfg new_version
      ∧ sizeof_bin_file cfg new_version
        = strlen (oth2a_bin_file_template cfg) + strlen new_version
      ∧ (bin_url_string cfg new_version).length + 1 = sizeof_bin_url cfg new_version
      ∧ sizeof_bin_url cfg new_version
        = strlen cfg.CONFIG_OTH2A_BASE_URL + sizeof_bin_file cfg new_version
      ∧ (latest_url_string cfg).length + 1
        = strlen cfg.CONFIG_OTH2A_BASE_URL + strlen oth2a_latest_file + 2
      ∧ sizeof_url cfg = strlen cfg.CONFIG_OTH2A_BASE_URL + strlen oth2a_latest_file + 2 := by
  have hname := bin_file_name_eq cfg new_version hpre
  have htemplate : strlen (oth2a_bin_file_template cfg)
      = cfg.CONFIG_OTH2A_FIRMWARE_PREAMBLE.length + 7 := by
    unfold strlen
    rw [c_str_of_no_nul]
    · simp [oth2a_bin_file_template]
    · intro x hx
      unfold oth2a_bin_file_template at hx
      rcases List.mem_append.1 hx with hx | hx
      · exact (hpre x hx).2
      · simp at hx; omega
  have hlen : (bin_file_name cfg new_version).length
      = cfg.CONFIG_OTH2A_FIRMWARE_PREAMBLE.length + 5 + strlen new_version := by
    rw [hname]
    simp [strlen]
    omega
  have hcstr : c_str (bin_file_name cfg new_version) = bin_file_name cfg new_version := by
    apply c_str_of_no_nul
    intro x hx
    rw [hname] at hx
    simp only [List.mem_append] at hx
    rcases hx with ((hx | hx) | hx) | hx
    · exact (hpre x hx).2
    · simp at hx; omega
    · exact c_str_no_nul _ x hx
    · simp at hx; omega
  have hlatest : strlen oth2a_latest_file = 6 := by decide
  have hclatest : c_str oth2a_latest_file = oth2a_latest_file := by decide
  refine ⟨by omega, by unfold sizeof_bin_file; omega, rfl, ?_, rfl, ?_, rfl⟩
  · unfold bin_url_string sizeof_bin_url sizeof_bin_file
    rw [sprintf_s_slash, hcstr]
    simp [strlen] at *
    omega
  · unfold latest_url_string
    rw [sprintf_s_slash, hclatest, hlatest]
    simp [strlen, oth2a_latest_file]

theorem path_buffers_suffice_witness :
    bin_file_name example_config version_2_0_1
        = [102, 119, 95, 50, 46, 48, 46, 49, 46, 98, 105, 110]
      ∧ sizeof_bin_file example_config version_2_0_1 = 14
      ∧ (bin_file_name example_config version_2_0_1).length + 1
        ≤ sizeof_bin_file example_config version_2_0_1
      ∧ (bin_url_string example_config version_2_0_1).length + 1
        = sizeof_bin_url example_config version_2_0_1 :=
  have h := path_buffers_suffice example_config version_2_0_1 (by decide)
  ⟨by decide, by decide, h.2.1, h.2.2.2.1⟩

/-! ## The handle of the flash session -/

/-- Either a run of `update_firmware` that took the lock makes no download
request, or it is the download phase run on the handle that `esp_ota_begin`
stored in `update_info.handle`. -/
theorem update_firmware_session (p : Platform) (cfg : Config) (u : update_info_t)
    (tr : List Event) (new_version : List Nat) (hsem : u.semaphore = some true)
    (R : Run Bool) (hR : R = update_firmware p cfg u tr new_version) :
    (∀ r, Event.h2client_do_request_returned r ∉ events_since tr R.trace)
      ∨ ∃ c rn part url,
          R = update_firmware_download p ⟨some false, session_handle p u tr c rn part, false, 0⟩
            (tr ++ [Event.xSemaphoreTake true, Event.esp_ota_get_boot_partition c,
              Event.esp_ota_get_running_partition rn,
              Event.esp_ota_get_next_update_partition (some part),
              Event.esp_ota_begin part ESP_OK]) part url := by
  unfold update_firmware at hR
  rw [hsem] at hR
  simp only [xSemaphoreTake, Bool.not_true, Bool.false_eq_true, if_false] at hR
  generalize p.sprintf (oth2a_bin_file_template cfg) [c_str new_version] = f at *
  generalize p.sprintf fmt_s_slash_s [c_str cfg.CONFIG_OTH2A_BASE_URL, f.2] = furl at *
  by_cases hf : f.1 < 0
  · left
    intro r
    simp only [hf, if_true, update_firmware_error] at hR
    rw [hR]
    simp only [List.append_assoc, List.cons_append, List.nil_append, events_since_append]
    simp
  · by_cases hfu : furl.1 < 0
    · left
      intro r
      simp only [hf, hfu, if_true, if_false, update_firmware_error] at hR
      rw [hR]
      simp only [List.append_assoc, List.cons_append, List.nil_append, events_since_append]
      simp
    · simp only [hf, hfu, if_false] at hR
      cases hc : p.esp_ota_get_boot_partition (tr ++ [Event.xSemaphoreTake true]) with
      | none =>
        left
        intro r
        rw [hc] at hR
        simp only [update_firmware_error] at hR
        rw [hR]
        simp only [List.append_assoc, List.cons_append, List.nil_append, events_since_append]
        simp
      | some cp =>
        rw [hc] at hR
        simp only [] at hR
        cases hrn : p.esp_ota_get_running_partition (tr ++ [Event.xSemaphoreTake true]
            ++ [Event.esp_ota_get_boot_partition (some cp)]) with
        | none =>
          left
          intro r
          rw [hrn] at hR
          simp only [] at hR
          rw [hR]
          simp only [List.append_assoc, List.cons_append, List.nil_append, events_since_append]
          simp
        | some rp =>
          rw [hrn] at hR
          simp only [] at hR
          cases hnx : p.esp_ota_get_next_update_partition
              (tr ++ [Event.xSemaphoreTake true] ++ [Event.esp_ota_get_boot_partition (some cp)]
                ++ [Event.esp_ota_get_running_partition (some rp)]) with
          | none =>
            left
            intro r
            rw [hnx] at hR
            simp only [] at hR
            rw [hR]
            simp only [List.append_assoc, List.cons_append, List.nil_append,
              events_since_append]
            simp
          | some part =>
            rw [hnx] at hR
            simp only [] at hR
            by_cases hb : (p.esp_ota_begin
                (tr ++ [Event.xSemaphoreTake true]
                  ++ [Event.esp_ota_get_boot_partition (some cp)]
                  ++ [Event.esp_ota_get_running_partition (some rp)]
                  ++ [Event.esp_ota_get_next_update_partition (some part)]) part
                u.handle).1 = ESP_OK
            · right
              refine ⟨some cp, some rp, part, furl.2, ?_⟩
              simp only [hb, ne_eq, not_true_eq_false, if_false] at hR
              rw [hR]
              unfold session_handle
              simp only [List.append_assoc, List.singleton_append, List.cons_append,
                List.nil_append]
            · left
              intro r
              simp only [hb, ne_eq, not_false_eq_true, if_true, update_firmware_error] at hR
              rw [hR]
              simp only [List.append_assoc, List.cons_append, List.nil_append,
                events_since_append]
              simp

theorem update_firmware_download_handle (p : Platform) (u : update_info_t) (tr : List Event)
    (part : esp_partition_t) (url : List Nat) :
    (update_firmware_download p u tr part url).info.handle = u.handle := by
  have hh := (deliver_handle p u (tr ++ [Event.h2client_do_request url])
    (p.h2client_do_request_callback tr url).chunks).1
  unfold update_firmware_download update_firmware_error
  simp only []
  repeat' split
  all_goals exact hh

/-- C14: if the transport fails during the image download, that is
`h2client_do_request` returns false in the run, after any number of delivered
chunks, `update_firmware` closes the flash session it opened: it calls
`esp_ota_end` exactly once, on the handle that `esp_ota_begin` stored in
`update_info.handle` (the handle of every `esp_ota_write` of the run, and still
the value of `update_info.handle` at the end).  It makes no
`esp_ota_set_boot_partition` call and no `esp_restart` call, calls
`xSemaphoreGive` once, as its last call, leaves the semaphore available and
returns false. -/
theorem failed_download_aborts (p : Platform) (cfg : Config) (u : update_info_t)
    (tr : List Event) (new_version : List Nat)
    (hdl : Event.h2client_do_request_returned false
      ∈ events_since tr (update_firmware p cfg u tr new_version).trace) :
    (update_firmware p cfg u tr new_version).outcome = .returned false
      ∧ (events_since tr (update_firmware p cfg u tr new_version).trace).countP
          is_esp_ota_end = 1
      ∧ (events_since tr (update_firmware p cfg u tr new_version).trace).countP
          is_esp_ota_set_boot_partition = 0
      ∧ (events_since tr (update_firmware p cfg u tr new_version).trace).countP
          is_esp_restart = 0
      ∧ (events_since tr (update_firmware p cfg u tr new_version).trace).countP
          is_xSemaphoreGive = 1
      ∧ (∃ c rn part url wl e,
          events_since tr (update_firmware p cfg u tr new_version).trace
            = [Event.xSemaphoreTake true, Event.esp_ota_get_boot_partition c,
                Event.esp_ota_get_running_partition rn,
                Event.esp_ota_get_next_update_partition (some part),
                Event.esp_ota_begin part ESP_OK, Event.h2client_do_request url] ++ wl
              ++ [Event.h2client_do_request_returned false,
                  Event.esp_ota_end (session_handle p u tr c rn part) e,
                  Event.xSemaphoreGive]
          ∧ (∀ x ∈ wl, ∃ ch r,
              x = Event.esp_ota_write (session_handle p u tr c rn part) ch r)
          ∧ (update_firmware p cfg u tr new_version).info.handle
              = session_handle p u tr c rn part)
      ∧ (update_firmware p cfg u tr new_version).info.semaphore = some true := by
  have hg1 : ∀ h c r, is_esp_restart (Event.esp_ota_write h c r) = false := fun _ _ _ => rfl
  have hg2 : ∀ h c r, is_xSemaphoreGive (Event.esp_ota_write h c r) = false := fun _ _ _ => rfl
  have hg3 : ∀ h c r, is_esp_ota_set_boot_partition (Event.esp_ota_write h c r) = false :=
    fun _ _ _ => rfl
  have hg4 : ∀ h c r, is_esp_ota_end (Event.esp_ota_write h c r) = false := fun _ _ _ => rfl
  rcases update_firmware_paths p cfg u tr new_version _ rfl with
    ⟨-, -, ht, -⟩ | ⟨-, -, ht, -⟩ | ⟨hsem, -⟩
  · have : events_since tr (update_firmware p cfg u tr new_version).trace = [] := by
      rw [ht]; simpa using events_since_append tr []
    rw [this] at hdl; simp at hdl
  · rw [ht, events_since_append] at hdl; simp at hdl
  · rcases update_firmware_session p cfg u tr new_version hsem _ rfl with
      hno | ⟨c, rn, part, url, hR⟩
    · exact absurd hdl (hno false)
    · obtain ⟨wl, ok, e, hw, -, hd⟩ := update_firmware_download_paths p
        ⟨some false, session_handle p u tr c rn part, false, 0⟩ _ part url rfl rfl _ hR
      have hhandle : (update_firmware p cfg u tr new_version).info.handle
          = session_handle p u tr c rn part := by
        rw [hR]
        exact update_firmware_download_handle p _ _ part url
      have hc1 := countP_of_all_writes wl _ is_esp_restart hg1 hw
      have hc2 := countP_of_all_writes wl _ is_xSemaphoreGive hg2 hw
      have hc3 := countP_of_all_writes wl _ is_esp_ota_set_boot_partition hg3 hw
      have hc4 := countP_of_all_writes wl _ is_esp_ota_end hg4 hw
      have hn : Event.h2client_do_request_returned false ∉ wl :=
        mem_of_all_writes wl _ _ rfl hw
      rcases hd with ⟨-, ho, ht, hi⟩ | ⟨hok, -, -, -, ht, -⟩ | ⟨err, -, hok, -, -, -, ht, -⟩
        | ⟨hok, -, -, -, ht, -⟩
      · rw [ht] at hdl ⊢
        simp only [List.append_assoc, List.cons_append, List.nil_append,
          events_since_append] at hdl ⊢
        simp [hn] at hdl
        subst hdl
        refine ⟨ho, by simp [is_esp_ota_end, hc4], by simp [is_esp_ota_set_boot_partition, hc3],
          by simp [is_esp_restart, hc1], by simp [is_xSemaphoreGive, hc2],
          ⟨c, rn, part, url, wl, e, rfl, hw, hhandle⟩, hi⟩
      · rw [ht, hok] at hdl
        simp only [List.append_assoc, List.cons_append, List.nil_append,
          events_since_append] at hdl
        simp [hn] at hdl
      · rw [ht, hok] at hdl
        simp only [List.append_assoc, List.cons_append, List.nil_append,
          events_since_append] at hdl
        simp [hn] at hdl
      · rw [ht, hok] at hdl
        simp only [List.append_assoc, List.cons_append, List.nil_append,
          events_since_append] at hdl
        simp [hn] at hdl

theorem failed_download_aborts_witness :
    Event.h2client_do_request_returned false
        ∈ events_since [] (update_firmware
          (example_platform three_chunks false writes_ok 0 0) example_config
          idle_info [] version_2_0_1).trace
      ∧ flash_writes (events_since [] (update_firmware
          (example_platform three_chunks false writes_ok 0 0) example_config
          idle_info [] version_2_0_1).trace) = three_chunks
      ∧ idle_info.handle = 0
      ∧ session_handle (example_platform three_chunks false writes_ok 0 0) idle_info []
          (some ota_0) (some ota_0) ota_1 = 1
      ∧ Event.esp_ota_end 1 0
        ∈ events_since [] (update_firmware
          (example_platform three_chunks false writes_ok 0 0) example_config
          idle_info [] version_2_0_1).trace
      ∧ (update_firmware (example_platform three_chunks false writes_ok 0 0)
          example_config idle_info [] version_2_0_1).outcome = .returned false
      ∧ (events_since [] (update_firmware
          (example_platform three_chunks false writes_ok 0 0) example_config
          idle_info [] version_2_0_1).trace).countP is_esp_ota_end = 1 :=
  have h := failed_download_aborts (example_platform three_chunks false writes_ok 0 0)
    example_config idle_info [] version_2_0_1 (by decide)
  ⟨by decide, by decide, rfl, by decide, by decide, h.1, h.2.1⟩

end Oth2a
